import Mathlib

/-!
# LANVotePage: session state machine, vote intake and CSV export

A shallow embedding of `src/server.js`.  The process-wide `gameState` object is
an explicit record that every handler receives and returns; what a handler
sends over the sockets is returned as a list of `Event`s.  JavaScript values
are typed after the data model (strings, booleans, JSON scalars), and the
pieces of JavaScript semantics the handlers rely on (truthiness in `x || 0`,
`parseFloat`, `toFixed`, the property order of plain objects and the
properties a plain object inherits) are spelled out as definitions.
-/

namespace LANVote

/-! ## Numbers -/

/-- A JavaScript number: `NaN`, an infinity, or a finite value kept as the
reduced fraction `n / d`.  The two zeros are identified: nothing in the
handlers tells them apart (`-0` is falsy, prints as `0.00`, and is never a
divisor). -/
inductive JsNum where
  | nan
  | inf (neg : Bool)
  | fin (n : Int) (d : Nat)
  deriving DecidableEq

/-- Number of binary digits of `n`, by recursion on a bound `fuel ≥ n`. -/
def bitLenAux : Nat → Nat → Nat
  | 0, _ => 0
  | fuel + 1, n => if n = 0 then 0 else bitLenAux fuel (n / 2) + 1

/-- The number of binary digits of `n` (`0` for `0`). -/
def bitLen (n : Nat) : Nat := bitLenAux n n

/-- The finite number `± m * 2 ^ q` as a reduced fraction. -/
def mkFin (neg : Bool) (m : Nat) (q : Int) : JsNum :=
  let sgn : Int := if neg then -1 else 1
  if 0 ≤ q then JsNum.fin (sgn * (m * 2 ^ q.toNat : Nat)) 1
  else
    let den := 2 ^ q.natAbs
    let g := Nat.gcd m den
    JsNum.fin (sgn * (m / g : Nat)) (den / g)

/-- The binary exponent of the rational `a / d` (`a, d > 0`): the `e` with
`2 ^ e ≤ a / d < 2 ^ (e + 1)`. -/
def binExp (a d : Nat) : Int :=
  let k : Int := (bitLen a : Int) - (bitLen d : Int)
  -- `2 ^ (k - 1) < a / d < 2 ^ (k + 1)`
  let ge : Bool := if 0 ≤ k then decide (d * 2 ^ k.toNat ≤ a) else decide (d ≤ a * 2 ^ k.natAbs)
  if ge then k else k - 1

/-- The exponent `q` of the unit in the last place `2 ^ q` of the binary64
values around `a / d` (subnormal below `2 ^ (-1022)`). -/
def ulpExp (a d : Nat) : Int := max (binExp a d) (-1022) - 52

/-- The integer nearest to `a / (d * 2 ^ q)`, the even one on a tie. -/
def significand (a d : Nat) (q : Int) : Nat :=
  let num : Nat := if q < 0 then a * 2 ^ q.natAbs else a
  let den : Nat := if q < 0 then d else d * 2 ^ q.toNat
  let fl := num / den
  let r := num % den
  if 2 * r < den then fl
  else if den < 2 * r then fl + 1
  else if fl % 2 = 0 then fl else fl + 1

/-- The number `± m * 2 ^ q` for a significand `m ≤ 2 ^ 53`: an infinity when
it reaches `2 ^ 1024`. -/
def packRound (neg : Bool) (m : Nat) (q : Int) : JsNum :=
  if 971 < q ∨ (q = 971 ∧ 2 ^ 53 ≤ m) then JsNum.inf neg else mkFin neg m q

/-- The binary64 value nearest to the rational `n / d` (`d > 0`), ties to the
even significand, overflowing to an infinity: the rounding every arithmetic
operation on numbers ends with. -/
def roundQ (n : Int) (d : Nat) : JsNum :=
  if n.natAbs = 0 ∨ d = 0 then JsNum.fin 0 1
  else packRound (decide (n < 0)) (significand n.natAbs d (ulpExp n.natAbs d)) (ulpExp n.natAbs d)

/-- JavaScript `x + y` on numbers. -/
def fadd : JsNum → JsNum → JsNum
  | JsNum.nan, _ => JsNum.nan
  | _, JsNum.nan => JsNum.nan
  | JsNum.inf a, JsNum.inf b => if a = b then JsNum.inf a else JsNum.nan
  | JsNum.inf a, JsNum.fin _ _ => JsNum.inf a
  | JsNum.fin _ _, JsNum.inf b => JsNum.inf b
  | JsNum.fin n1 d1, JsNum.fin n2 d2 => roundQ (n1 * d2 + n2 * d1) (d1 * d2)

/-- JavaScript `x / count` where `count` is the `length` of an array. -/
def fdivCount : JsNum → Nat → JsNum
  | JsNum.nan, _ => JsNum.nan
  | JsNum.inf a, _ => JsNum.inf a
  | JsNum.fin n d, count =>
    if count = 0 then (if n = 0 then JsNum.nan else JsNum.inf (decide (n < 0)))
    else roundQ n (d * count)

/-- The number zero. -/
def JsNum.zero : JsNum := JsNum.fin 0 1

/-- Truthiness of a number: `NaN` and zero are falsy. -/
def JsNum.truthy : JsNum → Bool
  | JsNum.nan => false
  | JsNum.inf _ => true
  | JsNum.fin n _ => decide (n ≠ 0)

/-- The expression `x || 0` for `x` a number or `undefined` (`none`). -/
def orZero : Option JsNum → JsNum
  | some x => if x.truthy then x else JsNum.zero
  | none => JsNum.zero

/-- Whether a number is finite. -/
def JsNum.isFinite : JsNum → Bool
  | JsNum.fin _ _ => true
  | _ => false

/-- The decimal digits of `n`, most significant first (`[]` for `0`), by
recursion on a bound `fuel ≥ n`. -/
def digitsAux : Nat → Nat → List Char → List Char
  | 0, _, acc => acc
  | fuel + 1, n, acc =>
    if n = 0 then acc else digitsAux fuel (n / 10) (Char.ofNat (48 + n % 10) :: acc)

/-- The decimal numeral of `n`. -/
def natDigits (n : Nat) : List Char :=
  if n = 0 then ['0'] else digitsAux n n []

/-- The decimal numeral of `n` as a string. -/
def natString (n : Nat) : String := String.mk (natDigits n)

/-- The candidates of `Number::toString` with `k` digits for `x = a / d`, where
`a / d` has `n` integer digits: the pairs `(s, n1)` with `s` a `k`-digit number
next to `x / 10 ^ (n - k)` such that `s * 10 ^ (n1 - k)` rounds to `x`, the
nearer one first (the even one on a tie). -/
def shortestCandidates (a d n k : Nat) : List (Nat × Nat) :=
  let p := 10 ^ (n - k)
  let lo := a / (d * p)
  let hi : Nat × Nat := if lo + 1 < 10 ^ k then (lo + 1, n) else (10 ^ (k - 1), n + 1)
  let ok : Nat × Nat → Bool := fun c =>
    decide (roundQ ((c.1 * 10 ^ (c.2 - k) : Nat) : Int) 1 = roundQ a d)
  let dLo : Nat := a - lo * p * d
  let dHi : Nat := (lo + 1) * p * d - a
  let order : List (Nat × Nat) :=
    if dLo < dHi then [(lo, n), hi]
    else if dHi < dLo then [hi, (lo, n)]
    else if lo % 2 = 0 then [(lo, n), hi] else [hi, (lo, n)]
  order.filter ok

/-- The digits `s` and the exponent `n` of `Number::toString` for `x = a / d`
with `n0` integer digits: the shortest numeral that reads back as `x`, looked
for among `k = ks` digits in turn. -/
def shortestDigits (a d n0 : Nat) : List Nat → List Char × Nat
  | [] => (natDigits (a / d), n0)
  | k :: ks =>
    match shortestCandidates a d n0 k with
    | c :: _ => (natDigits c.1, c.2)
    | [] => shortestDigits a d n0 ks

/-- `Number::toString` of a finite `x = a / d ≥ 10 ^ 21`: exponential form. -/
def bigToString (a d : Nat) : String :=
  let r := shortestDigits a d (natDigits (a / d)).length (List.range' 1 17)
  let mant : List Char := match r.1 with
    | [] => []
    | [c] => [c]
    | c :: cs => c :: '.' :: cs
  String.mk mant ++ "e+" ++ natString (r.2 - 1)

/-- `Number.prototype.toFixed(2)`. -/
def toFixed2 : JsNum → String
  | JsNum.nan => "NaN"
  | JsNum.inf neg => if neg then "-Infinity" else "Infinity"
  | JsNum.fin n d =>
    let a := n.natAbs
    let s := if n < 0 then "-" else ""
    -- a denominator `0` stands for no number; no operation produces one
    if d = 0 then "NaN"
    else if 10 ^ 21 * d ≤ a then s ++ bigToString a d
    else
      -- the integer nearest to `100 * a / d`, the larger one on a tie
      let r := (200 * a + d) / (2 * d)
      s ++ natString (r / 100) ++ "." ++ String.mk [Char.ofNat (48 + r / 10 % 10), Char.ofNat (48 + r % 10)]

/-- The code points `parseFloat` skips at the start (`WhiteSpace` and
`LineTerminator`). -/
def isJsWhite (c : Char) : Bool :=
  [0x09, 0x0A, 0x0B, 0x0C, 0x0D, 0x20, 0xA0, 0x1680, 0x2000, 0x2001, 0x2002, 0x2003, 0x2004,
   0x2005, 0x2006, 0x2007, 0x2008, 0x2009, 0x200A, 0x2028, 0x2029, 0x202F, 0x205F, 0x3000,
   0xFEFF].contains c.toNat

/-- A decimal digit. -/
def isDigitChar (c : Char) : Bool := decide (48 ≤ c.toNat) && decide (c.toNat ≤ 57)

/-- The value of a run of decimal digits. -/
def digitsVal (ds : List Char) : Nat := ds.foldl (fun a c => 10 * a + (c.toNat - 48)) 0

/-- The value of an `ExponentPart` at the head of `cs`, `0` when there is none. -/
def exponentPart : List Char → Int
  | [] => 0
  | c :: r =>
    if c = 'e' ∨ c = 'E' then
      match r with
      | '-' :: r1 => -((digitsVal (r1.takeWhile isDigitChar) : Nat) : Int)
      | '+' :: r1 => ((digitsVal (r1.takeWhile isDigitChar) : Nat) : Int)
      | _ => ((digitsVal (r.takeWhile isDigitChar) : Nat) : Int)
    else 0

/-- The pair `± m * 10 ^ ex` rounded to a number. -/
def decimalValue (neg : Bool) (m : Nat) (ex : Int) : JsNum :=
  let sgn : Int := if neg then -1 else 1
  if 0 ≤ ex then roundQ (sgn * (m * 10 ^ ex.toNat : Nat)) 1
  else roundQ (sgn * (m : Int)) (10 ^ ex.natAbs)

/-- The unsigned part of `parseFloat`: `Infinity`, or the longest prefix that
is a `StrUnsignedDecimalLiteral`; `NaN` when there is none. -/
def parseUnsigned (neg : Bool) (cs : List Char) : JsNum :=
  if "Infinity".data.isPrefixOf cs then JsNum.inf neg
  else
    let ip := cs.takeWhile isDigitChar
    let r1 := cs.dropWhile isDigitChar
    let fp := match r1 with
      | '.' :: r => r.takeWhile isDigitChar
      | _ => []
    let r2 := match r1 with
      | '.' :: r => r.dropWhile isDigitChar
      | _ => r1
    if ip = [] ∧ fp = [] then JsNum.nan
    else decimalValue neg (digitsVal (ip ++ fp)) (exponentPart r2 - (fp.length : Int))

/-- The function `parseFloat` on a string. -/
def parseFloatStr (s : String) : JsNum :=
  match s.data.dropWhile isJsWhite with
  | '-' :: r => parseUnsigned true r
  | '+' :: r => parseUnsigned false r
  | cs => parseUnsigned false cs

/-! ## Values -/

/-- A JSON scalar as it may sit in a `scores` object. -/
inductive JsVal where
  | null
  | bool (b : Bool)
  | num (x : JsNum)
  | str (s : String)
  deriving DecidableEq

/-- The expression `parseFloat(v || 0)` for the value `v` of a property
(`none` when the property is undefined).  A number that is truthy prints and
reads back as itself. -/
def parseScore : Option JsVal → JsNum
  | none => JsNum.zero
  | some JsVal.null => JsNum.zero
  | some (JsVal.bool false) => JsNum.zero
  | some (JsVal.bool true) => JsNum.nan
  | some (JsVal.num x) => orZero (some x)
  | some (JsVal.str s) => if s = "" then JsNum.zero else parseFloatStr s

/-! ## Data model -/

/-- One rubric category `{ id, name }`. -/
structure Category where
  id : String
  name : String
  deriving DecidableEq

/-- The own properties of a `scores` object, in insertion order. -/
abbrev Scores := List (String × JsVal)

/-- The record pushed onto `gameState.votes`. -/
structure Vote where
  mainSubject : String
  subject : String
  scores : Scores
  voterId : String
  voterIp : String
  clientId : String
  deriving DecidableEq

/-- An entry of `availableIps`. -/
structure NetIface where
  name : String
  address : String
  url : String
  deriving DecidableEq

/-- The `gameState` object. -/
structure GameState where
  sessionId : Option String
  name : String
  categories : List Category
  currentSubject : String
  currentParticipants : List String
  votingMode : String
  isVotingOpen : Bool
  votes : List Vote
  availableIps : List NetIface
  selectedIpIndex : Int
  deriving DecidableEq

/-- The `gameState` literal; `ips` is what `getNetworkInterfaces()` returned. -/
def initialState (ips : List NetIface) : GameState :=
  { sessionId := none
    name := "Classroom Session"
    categories := []
    currentSubject := ""
    currentParticipants := []
    votingMode := "group"
    isVotingOpen := false
    votes := []
    availableIps := ips
    selectedIpIndex := 0 }

/-- What a handler sends: `io.emit('state-update', g)` to every socket, or an
event for one socket. -/
inductive Event where
  | stateUpdateAll (g : GameState)
  | stateUpdateTo (socket : String) (g : GameState)
  | errorMessage (socket : String) (msg : String)
  | forceDisconnect (socket : String) (msg : String)
  deriving DecidableEq

/-- One element of `data.items`; `name` is `none` when the property is absent. -/
structure Item where
  type : String
  name : Option String
  scores : Scores
  deriving DecidableEq

/-- The argument of `student-submit-vote`; `items` is `none` when absent. -/
structure SubmitData where
  items : Option (List Item)
  deriving DecidableEq

/-- The argument of `host-create-session`. -/
structure CreateData where
  name : String
  categories : List Category
  deriving DecidableEq

/-- The argument of `host-update-status`; a field is `none` when `undefined`. -/
structure StatusData where
  currentSubject : Option String
  isVotingOpen : Option Bool
  currentParticipants : Option (List String)
  votingMode : Option String
  deriving DecidableEq

/-! ## Socket handlers -/

/-- The handler of `host-create-session`; `token` is the value of
`Math.random().toString(36).substring(7)`. -/
def hostCreateSession (g : GameState) (token : String) (data : CreateData) :
    GameState × List Event :=
  let g1 := { g with name := data.name, categories := data.categories,
                     sessionId := some token, votes := [] }
  (g1, [Event.stateUpdateAll g1])

/-- The handler of `host-select-ip`. -/
def hostSelectIp (g : GameState) (index : Int) : GameState × List Event :=
  if 0 ≤ index ∧ index < (g.availableIps.length : Int) then
    let g1 := { g with selectedIpIndex := index }
    (g1, [Event.stateUpdateAll g1])
  else (g, [])

/-- The handler of `host-update-status`. -/
def hostUpdateStatus (g : GameState) (data : StatusData) : GameState × List Event :=
  let g1 := match data.currentSubject with
    | some v => { g with currentSubject := v }
    | none => g
  let g2 := match data.isVotingOpen with
    | some v => { g1 with isVotingOpen := v }
    | none => g1
  let g3 := match data.currentParticipants with
    | some v => { g2 with currentParticipants := v }
    | none => g2
  let g4 := match data.votingMode with
    | some v => { g3 with votingMode := v }
    | none => g3
  (g4, [Event.stateUpdateAll g4])

/-- The test `gameState.votes.some(v => v.mainSubject === gameState.currentSubject
&& v.clientId === clientId)`. -/
def alreadyVoted (g : GameState) (clientId : String) : Bool :=
  g.votes.any fun v => decide (v.mainSubject = g.currentSubject) && decide (v.clientId = clientId)

/-- The text a template literal gives for `item.name`. -/
def templateName : Option String → String
  | some n => n
  | none => "undefined"

/-- The `displaySubject` computed for one item. -/
def displaySubject (g : GameState) (item : Item) : String :=
  if item.type = "group" then
    if g.votingMode = "mixed" then g.currentSubject ++ " (Group)"
    else g.currentSubject
  else if item.type = "participant" then
    g.currentSubject ++ " - " ++ templateName item.name
  else g.currentSubject

/-- The record pushed for one item. -/
def mkVote (g : GameState) (socketId clientIp clientId : String) (item : Item) : Vote :=
  { mainSubject := g.currentSubject
    subject := displaySubject g item
    scores := item.scores
    voterId := socketId
    voterIp := clientIp
    clientId := clientId }

/-- The message of the duplicate-vote rejection. -/
def alreadyVotedMsg : String := "You have already voted for this subject!"

/-- The handler of `student-submit-vote` on the socket `socketId` of the
connection whose address is `clientIp` and whose identifier is `clientId`. -/
def studentSubmitVote (g : GameState) (socketId clientIp clientId : String)
    (data : SubmitData) : GameState × List Event :=
  if g.isVotingOpen = false then (g, [])
  else if alreadyVoted g clientId then
    (g, [Event.errorMessage socketId alreadyVotedMsg])
  else
    let items := data.items.getD []
    let g1 := items.foldl
      (fun acc item => { acc with votes := acc.votes ++ [mkVote acc socketId clientIp clientId item] }) g
    (g1, [Event.stateUpdateAll g1])

/-- The write `gameState.availableIps = getNetworkInterfaces()` and the snapshot
sent to a socket that has just connected. -/
def refreshIps (g : GameState) (socketId : String) (ips : List NetIface) :
    GameState × List Event :=
  let g1 := { g with availableIps := ips }
  (g1, [Event.stateUpdateTo socketId g1])

/-! ## Plain objects used as maps -/

/-- The property names every plain object inherits from `Object.prototype`.
Read on `{}`, each is a function or (for `__proto__`) the prototype object:
truthy, and without a `push` method. -/
def objectPrototypeKeys : List String :=
  ["constructor", "__defineGetter__", "__defineSetter__", "hasOwnProperty",
   "__lookupGetter__", "__lookupSetter__", "isPrototypeOf", "propertyIsEnumerable",
   "toString", "valueOf", "__proto__", "toLocaleString"]

/-- The own property `o[k]` of an object kept as the list of its own
properties in creation order. -/
def getProp {α : Type} (o : List (String × α)) (k : String) : Option α :=
  (o.find? fun e => decide (e.1 = k)).map Prod.snd

/-- The assignment `o[k] = x`: an existing own property keeps its place, a new
one is created last. -/
def setProp {α : Type} (o : List (String × α)) (k : String) (x : α) : List (String × α) :=
  if o.any (fun e => decide (e.1 = k)) then o.map (fun e => if e.1 = k then (k, x) else e)
  else o ++ [(k, x)]

/-- The number a property name stands for when it is an array index: a
canonical decimal numeral below `2 ^ 32 - 1`. -/
def arrayIndex (k : String) : Option Nat :=
  let cs := k.data
  if cs ≠ [] ∧ cs.all isDigitChar = true ∧ (cs = ['0'] ∨ cs.head? ≠ some '0')
      ∧ digitsVal cs < 4294967295 then some (digitsVal cs)
  else none

/-- The order of `Object.entries`: the array-index names in ascending numeric
order, then the other names in creation order. -/
def objectEntries {α : Type} (o : List (String × α)) : List (String × α) :=
  (o.filter fun e => (arrayIndex e.1).isSome).insertionSort
      (fun a b => (arrayIndex a.1).getD 0 ≤ (arrayIndex b.1).getD 0)
    ++ o.filter fun e => !(arrayIndex e.1).isSome

/-- One step of `votes.reduce((acc, vote) => ...)` with the grouping key `key`:
`if (!acc[k]) acc[k] = []; acc[k].push(vote)`.  For an inherited name `acc[k]`
is truthy and `acc[k].push` is not a function: the step throws (`none`). -/
def pushVote (key : Vote → String) (acc : List (String × List Vote)) (vote : Vote) :
    Option (List (String × List Vote)) :=
  if key vote ∈ objectPrototypeKeys then none
  else
    let acc1 := if (getProp acc (key vote)).isNone then setProp acc (key vote) [] else acc
    some (setProp acc1 (key vote) ((getProp acc1 (key vote)).getD [] ++ [vote]))

/-- The object built by `votes.reduce(..., {})`. -/
def groupVotes (key : Vote → String) (votes : List Vote) : Option (List (String × List Vote)) :=
  votes.foldlM (pushVote key) []

/-! ## CSV export -/

/-- The statement `totals[id] = (totals[id] || 0) + score`, for an `id` that is
not an inherited name. -/
def addScore (totals : List (String × JsNum)) (id : String) (score : JsNum) :
    List (String × JsNum) :=
  setProp totals id (fadd (orZero (getProp totals id)) score)

/-- The expression `parseFloat(vote.scores[id] || 0)`.  When `scores` has no own
property `id` and `id` is an inherited name, `vote.scores[id]` is the
inherited function (for `__proto__` the prototype object): it is truthy and
reads as `NaN`. -/
def scoreOf (id : String) (vote : Vote) : JsNum :=
  match getProp vote.scores id with
  | some x => parseScore (some x)
  | none => if id ∈ objectPrototypeKeys then JsNum.nan else JsNum.zero

/-- The totals object after the two nested `forEach` loops. -/
def catTotals (categories : List Category) (votes : List Vote) : List (String × JsNum) :=
  votes.foldl
    (fun totals vote =>
      categories.foldl (fun totals cat => addScore totals cat.id (scoreOf cat.id vote)) totals)
    []

/-- The cells `categories.map(cat => (totals[cat.id] / count).toFixed(2))`.
For a category whose id is an inherited name, `totals[cat.id]` never becomes a
number (it stays the prototype object, or turns into a string that starts with
a function source text), so the cell is `NaN`; the own properties of the
other ids are not affected. -/
def catAvgs (categories : List Category) (votes : List Vote) : List String :=
  let totals := catTotals categories votes
  categories.map fun cat =>
    if cat.id ∈ objectPrototypeKeys then "NaN"
    else match getProp totals cat.id with
      | some t => toFixed2 (fdivCount t votes.length)
      | none => "NaN"

/-- The method `s.replace(pat, rep)` with a string pattern: the first
occurrence is replaced. -/
def replaceFirst (pat rep : List Char) : List Char → List Char
  | [] => if pat = [] then rep else []
  | c :: cs =>
    if pat.isPrefixOf (c :: cs) then rep ++ (c :: cs).drop pat.length
    else c :: replaceFirst pat rep cs

/-- The `displayName` of a sub-row. -/
def displayName (mainSubject subSubject : String) : String :=
  if (mainSubject ++ " - ").data.isPrefixOf subSubject.data then
    String.mk (replaceFirst (mainSubject ++ " - ").data [] subSubject.data)
  else if subSubject = mainSubject ∨ subSubject = mainSubject ++ " (Group)" then
    "Group Evaluation"
  else subSubject

/-- A line of the export before it is joined with commas. -/
inductive CsvRow where
  | header (cols : List String)
  | group (mainSubject : String) (count : Nat) (avgs : List String)
  | sub (displayName : String) (count : Nat) (avgs : List String)
  | spacer
  deriving DecidableEq

/-- The sub-rows of one main subject, from the entries of `subVotesMap`. -/
def subRows (categories : List Category) (mainSubject : String)
    (entries : List (String × List Vote)) : List CsvRow :=
  entries.map fun e => CsvRow.sub (displayName mainSubject e.1) e.2.length (catAvgs categories e.2)

/-- The rows pushed by one round of the outer `forEach`: the group row, the
sub-rows and the spacer. -/
def groupBlock (categories : List Category) (mainSubject : String) (mainVotes : List Vote) :
    Option (List CsvRow) :=
  match groupVotes (fun v => v.subject) mainVotes with
  | none => none
  | some subVotesMap =>
    some (CsvRow.group mainSubject mainVotes.length (catAvgs categories mainVotes)
      :: subRows categories mainSubject (objectEntries subVotesMap) ++ [CsvRow.spacer])

/-- The rows pushed by the outer `forEach` over the given entries. -/
def groupBlocks (categories : List Category) : List (String × List Vote) → Option (List CsvRow)
  | [] => some []
  | e :: rest =>
    match groupBlock categories e.1 e.2 with
    | none => none
    | some rows => (groupBlocks categories rest).map fun more => rows ++ more

/-- The array `csvRows` of `GET /export`; `none` when the handler throws. -/
def exportRows (categories : List Category) (votes : List Vote) : Option (List CsvRow) :=
  match groupVotes (fun v => v.mainSubject) votes with
  | none => none
  | some votesByMainSubject =>
    (groupBlocks categories (objectEntries votesByMainSubject)).map fun rows =>
      CsvRow.header (["Group/Subject", "Participant/Detail", "Vote Count"]
        ++ categories.map fun c => c.name) :: rows

/-- One line of the file: the cells joined with commas. -/
def renderRow : CsvRow → String
  | CsvRow.header cols => ",".intercalate cols
  | CsvRow.group mainSubject count avgs =>
    ",".intercalate (["\"" ++ mainSubject ++ "\"", "\"Group Score\"", natString count] ++ avgs)
  | CsvRow.sub name count avgs =>
    ",".intercalate (["\"\"", "\"" ++ name ++ "\"", natString count] ++ avgs)
  | CsvRow.spacer => ",,,,"

/-- The body sent by `GET /export`. -/
def exportCsv (g : GameState) : Option String :=
  (exportRows g.categories g.votes).map fun rows => "\n".intercalate (rows.map renderRow)

/-! ## Reference definitions for the aggregation -/

/-- The distinct values of a list in order of first occurrence. -/
def firstSeen : List String → List String
  | [] => []
  | x :: xs => x :: (firstSeen xs).filter fun y => decide (y ≠ x)

/-- The sum of the scores of the votes for a category id, in log order. -/
def sumScores (id : String) (votes : List Vote) : JsNum :=
  (votes.map (scoreOf id)).foldl fadd JsNum.zero

/-- The average of a category over a list of votes, to two decimals. -/
def average (id : String) (votes : List Vote) : String :=
  toFixed2 (fdivCount (sumScores id votes) votes.length)

/-- The order in which a plain object lists property names created in the
order `ks`: the array indices in ascending numeric order, then the other names
in creation order. -/
def keyOrder (ks : List String) : List String :=
  (ks.filter fun k => (arrayIndex k).isSome).insertionSort
      (fun a b => (arrayIndex a).getD 0 ≤ (arrayIndex b).getD 0)
    ++ ks.filter fun k => !(arrayIndex k).isSome

/-- The main subjects of the Group Score rows, in row order. -/
def groupRowSubjects : List CsvRow → List String
  | [] => []
  | CsvRow.group g _ _ :: rest => g :: groupRowSubjects rest
  | _ :: rest => groupRowSubjects rest

/-- The Group Score rows of the main subject `g`. -/
def groupRowsOf (g : String) (rows : List CsvRow) : List CsvRow :=
  rows.filter fun r => match r with
    | CsvRow.group m _ _ => decide (m = g)
    | _ => false

/-- Whether a row is a sub-row. -/
def CsvRow.isSub : CsvRow → Bool
  | CsvRow.sub _ _ _ => true
  | _ => false

/-- The sub-rows that follow the first Group Score row of the main subject
`g`, up to the next row that is not a sub-row. -/
def subRowsOf (g : String) : List CsvRow → List CsvRow
  | [] => []
  | CsvRow.group m _ _ :: rest =>
    if m = g then rest.takeWhile CsvRow.isSub else subRowsOf g rest
  | _ :: rest => subRowsOf g rest

/-- The votes of the main subject `g`, in log order. -/
def votesOfMain (g : String) (votes : List Vote) : List Vote :=
  votes.filter fun v => decide (v.mainSubject = g)

/-- The votes of the main subject `g` with the subject `s`, in log order. -/
def votesOfSub (g s : String) (votes : List Vote) : List Vote :=
  (votesOfMain g votes).filter fun v => decide (v.subject = s)

/-- The sub-rows of the main subject `g` as the aggregation describes them:
one per distinct subject of the group, in the property order of those
subjects, each computed from the votes of the group with that subject. -/
def expectedSubRows (categories : List Category) (votes : List Vote) (g : String) : List CsvRow :=
  (keyOrder (firstSeen ((votesOfMain g votes).map fun v => v.subject))).map fun s =>
    CsvRow.sub (displayName g s) (votesOfSub g s votes).length
      (catAvgs categories (votesOfSub g s votes))

/-- The rows of the main subject `g`: the Group Score row over all its votes,
its sub-rows and the spacer. -/
def expectedBlock (categories : List Category) (votes : List Vote) (g : String) : List CsvRow :=
  CsvRow.group g (votesOfMain g votes).length (catAvgs categories (votesOfMain g votes))
    :: expectedSubRows categories votes g ++ [CsvRow.spacer]

/-- The header row. -/
def headerRow (categories : List Category) : CsvRow :=
  CsvRow.header (["Group/Subject", "Participant/Detail", "Vote Count"]
    ++ categories.map fun c => c.name)

/-- No vote has a main subject or a subject that is a name inherited from
`Object.prototype`. -/
def NoInheritedKey (votes : List Vote) : Prop :=
  ∀ v ∈ votes, v.mainSubject ∉ objectPrototypeKeys ∧ v.subject ∉ objectPrototypeKeys

instance (votes : List Vote) : Decidable (NoInheritedKey votes) := by
  unfold NoInheritedKey; infer_instance

/-! ## Reachable states -/

/-- The states the handlers can produce from the initial one. -/
inductive Reachable : GameState → Prop where
  | init (ips : List NetIface) : Reachable (initialState ips)
  | connect {g : GameState} (socketId : String) (ips : List NetIface) :
      Reachable g → Reachable (refreshIps g socketId ips).1
  | createSession {g : GameState} (token : String) (data : CreateData) :
      Reachable g → Reachable (hostCreateSession g token data).1
  | selectIp {g : GameState} (index : Int) :
      Reachable g → Reachable (hostSelectIp g index).1
  | updateStatus {g : GameState} (data : StatusData) :
      Reachable g → Reachable (hostUpdateStatus g data).1
  | submit {g : GameState} (socketId clientIp clientId : String) (data : SubmitData) :
      Reachable g → Reachable (studentSubmitVote g socketId clientIp clientId data).1

/-! ## Runs and example inputs -/

/-- An item of type `group` with scores `A = a`, `B = b`. -/
def groupItem (a b : Int) : Item :=
  { type := "group", name := none
    scores := [("A", JsVal.num (JsNum.fin a 1)), ("B", JsVal.num (JsNum.fin b 1))] }

/-- An item of type `participant` with scores `A = a`, `B = b`. -/
def participantItem (name : String) (a b : Int) : Item :=
  { type := "participant", name := some name
    scores := [("A", JsVal.num (JsNum.fin a 1)), ("B", JsVal.num (JsNum.fin b 1))] }

/-- The initial state after the host has opened the vote on `subject` in the
mode `mode`. -/
def openedState (subject mode : String) : GameState :=
  (hostUpdateStatus (initialState [])
    { currentSubject := some subject, isVotingOpen := some true,
      currentParticipants := none, votingMode := some mode }).1

/-- One thing that reaches the server and touches `gameState`: a socket
connecting (`ips` is what `getNetworkInterfaces()` returns then), or one of the
four messages on some socket.  For `submit`, `socketId`, `clientIp` and
`clientId` are those of the connection the message arrives on. -/
inductive Op where
  | connect (socketId : String) (ips : List NetIface)
  | createSession (token : String) (data : CreateData)
  | selectIp (index : Int)
  | updateStatus (data : StatusData)
  | submit (socketId clientIp clientId : String) (data : SubmitData)
  deriving DecidableEq

/-- The handler that runs for `op`. -/
def applyOp (g : GameState) : Op → GameState × List Event
  | Op.connect socketId ips => refreshIps g socketId ips
  | Op.createSession token data => hostCreateSession g token data
  | Op.selectIp index => hostSelectIp g index
  | Op.updateStatus data => hostUpdateStatus g data
  | Op.submit socketId clientIp clientId data => studentSubmitVote g socketId clientIp clientId data

/-- The state after the handlers have run for a sequence, one after the other. -/
def runOps (g : GameState) : List Op → GameState
  | [] => g
  | op :: rest => runOps (applyOp g op).1 rest

/-- Whether `op` is a `host-create-session` message. -/
def Op.isCreateSession : Op → Bool
  | Op.createSession _ _ => true
  | _ => false

/-- The example run of one device among others: after the first vote of the
device `AA:BB:CC:DD:EE:FF`, another device votes, the host switches to mixed
mode, the first device reconnects on a new socket and votes again, and the
host selects an address. -/
def interleavedOps : List Op :=
  [Op.submit "s9" "10.0.0.6" "11:22:33:44:55:66" { items := some [groupItem 1 1] },
   Op.updateStatus { currentSubject := none, isVotingOpen := none,
                     currentParticipants := some ["X"], votingMode := some "mixed" },
   Op.connect "s2" [],
   Op.submit "s2" "10.0.0.5" "AA:BB:CC:DD:EE:FF" { items := some [participantItem "X" 9 9] },
   Op.selectIp 0]

/-- The categories `A` and `B`. -/
def categoriesAB : List Category := [{ id := "A", name := "A" }, { id := "B", name := "B" }]

/-- The records of `votes` with main subject `s` and device `d` are
consecutive and carry one socket and one address: they are the records of one
submission. -/
def SingleRun (votes : List Vote) (s d : String) : Prop :=
  ∃ (before run after : List Vote) (socketId clientIp : String),
    votes = before ++ run ++ after
    ∧ (∀ v ∈ run, v.mainSubject = s ∧ v.clientId = d ∧ v.voterId = socketId ∧ v.voterIp = clientIp)
    ∧ (∀ v ∈ before, ¬ (v.mainSubject = s ∧ v.clientId = d))
    ∧ (∀ v ∈ after, ¬ (v.mainSubject = s ∧ v.clientId = d))

/-- The state after one device has sent a group item and a participant item
in one submission for `Team1` in mixed mode. -/
def twoItemState : GameState :=
  (studentSubmitVote (openedState "Team1" "mixed") "s1" "10.0.0.5" "AA:BB:CC:DD:EE:FF"
    { items := some [groupItem 5 5, participantItem "X" 4 6] }).1

/-- The initial state after the host has created a session with the
categories `A` and `B`. -/
def sessionAB : GameState :=
  (hostCreateSession (initialState []) "k3x9q" { name := "Demo", categories := categoriesAB }).1

/-- The host opens the vote on `subject` in the mode `mode`. -/
def openSubject (g : GameState) (subject mode : String) : GameState :=
  (hostUpdateStatus g
    { currentSubject := some subject, isVotingOpen := some true,
      currentParticipants := none, votingMode := some mode }).1

/-- A session in which one device has voted for the subject `10` and then for
the subject `2`, both in group mode. -/
def numberedState : GameState :=
  (studentSubmitVote
    (openSubject
      (studentSubmitVote (openSubject sessionAB "10" "group")
        "s1" "10.0.0.5" "AA:BB:CC:DD:EE:FF" { items := some [groupItem 4 6] }).1
      "2" "group")
    "s1" "10.0.0.5" "AA:BB:CC:DD:EE:FF" { items := some [groupItem 2 8] }).1

/-- A session on the subject `7` in which one device has rated the participant
`X` and then, the host having switched to group mode, another device has
rated the group. -/
def mixedNumberState : GameState :=
  (studentSubmitVote
    (openSubject
      (studentSubmitVote (openSubject sessionAB "7" "participants")
        "s1" "10.0.0.5" "AA:BB:CC:DD:EE:FF" { items := some [participantItem "X" 4 6] }).1
      "7" "group")
    "s2" "10.0.0.6" "11:22:33:44:55:66" { items := some [groupItem 1 1] }).1

/-- A session in which one device has voted for a subject named
`constructor` in group mode. -/
def constructorState : GameState :=
  (studentSubmitVote (openSubject sessionAB "constructor" "group")
    "s1" "10.0.0.5" "AA:BB:CC:DD:EE:FF" { items := some [groupItem 4 6] }).1

/-- The session of the aggregation example: for `Team1` in mixed mode, one
device has rated the participants `X` and `Y` and the group. -/
def team1State : GameState :=
  (studentSubmitVote (openSubject sessionAB "Team1" "mixed")
    "s1" "10.0.0.5" "AA:BB:CC:DD:EE:FF"
    { items := some [participantItem "X" 4 6, participantItem "Y" 2 8, groupItem 5 5] }).1

/-! ## Device identity -/

/-- What `exec` hands to its callback: whether `error` is set, and `stdout`. -/
structure ExecResult where
  error : Bool
  stdout : String
  deriving DecidableEq

/-- A character of the class `[0-9a-fA-F]`. -/
def isHexChar (c : Char) : Bool :=
  isDigitChar c || (decide (97 ≤ c.toNat) && decide (c.toNat ≤ 102))
    || (decide (65 ≤ c.toNat) && decide (c.toNat ≤ 70))

/-- A character of the class `[:-]`. -/
def isMacSeparator (c : Char) : Bool := c = ':' || c = '-'

/-- Whether `cs` starts with `groups` times two hex digits and a separator,
followed by two hex digits. -/
def macMatchesAt : Nat → List Char → Bool
  | 0, a :: b :: _ => isHexChar a && isHexChar b
  | groups + 1, a :: b :: s :: rest =>
    isHexChar a && isHexChar b && isMacSeparator s && macMatchesAt groups rest
  | _, _ => false

/-- The first match of `/([0-9a-fA-F]{2}[:-]){5}([0-9a-fA-F]{2})/i` in `cs`:
the seventeen characters matched at the leftmost position where it matches. -/
def findMac : List Char → Option (List Char)
  | [] => none
  | c :: cs => if macMatchesAt 5 (c :: cs) then some ((c :: cs).take 17) else findMac cs

/-- The method `toUpperCase` on a match of the pattern. -/
def upperHex (cs : List Char) : List Char :=
  cs.map fun c => if 97 ≤ c.toNat ∧ c.toNat ≤ 102 then Char.ofNat (c.toNat - 32) else c

/-- The function `getMacAddress`: the value the promise resolves with (`none`
for `null`) and the commands passed to `exec`, in order.  `platform` is
`process.platform`, and `exec cmd` is what the callback of `exec(cmd, ...)`
receives. -/
def getMacAddress (platform : String) (exec : String → ExecResult) (ipAddress : String) :
    Option String × List String :=
  if ipAddress = "127.0.0.1" ∨ ipAddress = "::1" ∨ ipAddress = "localhost" then
    (some "LOCALHOST", [])
  else
    let pingCmd :=
      if platform = "win32" then "ping -n 1 -w 200 " ++ ipAddress
      else "ping -c 1 -W 0.2 " ++ ipAddress
    let arpCmd := if platform = "win32" then "arp -a " ++ ipAddress else "arp -n " ++ ipAddress
    let result := exec arpCmd
    let mac :=
      if result.error then none
      else (findMac result.stdout.data).map fun m => String.mk (upperHex m)
    (mac, [pingCmd, arpCmd])

/-- What the connection handler knows about the peer once `getMacAddress` has
resolved, and the commands that were run. -/
structure ClientIdentity where
  clientIp : String
  clientId : String
  idType : String
  commands : List String
  deriving DecidableEq

/-- The first lines of the connection handler: the `::ffff:` prefix of
`socket.handshake.address` is cut off, then `clientId = clientMac || clientIp`. -/
def resolveClient (platform : String) (exec : String → ExecResult) (address : String) :
    ClientIdentity :=
  let clientIp :=
    if "::ffff:".data.isPrefixOf address.data then String.mk (address.data.drop 7) else address
  let resolved := getMacAddress platform exec clientIp
  let truthyMac : Option String := resolved.1.filter fun m => decide (m ≠ "")
  { clientIp := clientIp
    clientId := truthyMac.getD clientIp
    idType := if truthyMac.isSome then "MAC" else "IP"
    commands := resolved.2 }

/-! ## Connection registry -/

/-- The map `activeConnections` (its entries in insertion order, like the own
properties of an object) and the ids of the connected sockets
(`io.sockets.sockets`). -/
structure Registry where
  activeConnections : List (String × String)
  sockets : List String
  deriving DecidableEq

/-- The method `Map.prototype.delete`. -/
def mapDelete (m : List (String × String)) (k : String) : List (String × String) :=
  m.filter fun e => decide (e.1 ≠ k)

/-- The message of the superseded notice. -/
def forceDisconnectMsg : String := "New connection from this device detected."

/-- The listener of `disconnect` of the socket `socketId` registered under
`clientId`. -/
def onDisconnect (r : Registry) (clientId socketId : String) : Registry :=
  if getProp r.activeConnections clientId = some socketId then
    { r with activeConnections := mapDelete r.activeConnections clientId }
  else r

/-- The registry part of the connection handler for the socket `socketId` of
the device `clientId`.  `oldSocket.disconnect(true)` takes the old socket out
of the connected sockets; its `disconnect` listener runs either inside that
call (`closeNow`) or later, as an `onDisconnect` step of its own. -/
def registerConnection (r : Registry) (clientId socketId : String) (closeNow : Bool) :
    Registry × List Event :=
  match getProp r.activeConnections clientId with
  | some oldSocketId =>
    if oldSocketId ∈ r.sockets ∧ oldSocketId ≠ socketId then
      let r1 := { r with sockets := r.sockets.filter fun s => decide (s ≠ oldSocketId) }
      let r2 := if closeNow then onDisconnect r1 clientId oldSocketId else r1
      ({ r2 with activeConnections := setProp r2.activeConnections clientId socketId },
       [Event.forceDisconnect oldSocketId forceDisconnectMsg])
    else ({ r with activeConnections := setProp r.activeConnections clientId socketId }, [])
  | none => ({ r with activeConnections := setProp r.activeConnections clientId socketId }, [])

/-- A socket has connected: it is among the connected sockets when the
connection handler runs. -/
def socketOpened (r : Registry) (socketId : String) : Registry :=
  { r with sockets := if socketId ∈ r.sockets then r.sockets else r.sockets ++ [socketId] }

/-- The operation `register(deviceId, channelId)`: the socket connects and the
connection handler registers it. -/
def register (r : Registry) (clientId socketId : String) (closeNow : Bool) :
    Registry × List Event :=
  registerConnection (socketOpened r socketId) clientId socketId closeNow

/-- The superseded notices sent to the socket `socketId`. -/
def noticesTo (socketId : String) (events : List Event) : List Event :=
  events.filter fun e => match e with
    | Event.forceDisconnect s _ => decide (s = socketId)
    | _ => false

/-! ## Reference definitions for the row counts -/

/-- The vote count of a Group Score row or of a sub-row. -/
def CsvRow.voteCount : CsvRow → Option Nat
  | CsvRow.group _ count _ => some count
  | CsvRow.sub _ count _ => some count
  | _ => none

/-- The average cells of a Group Score row or of a sub-row. -/
def CsvRow.cells : CsvRow → List String
  | CsvRow.group _ _ avgs => avgs
  | CsvRow.sub _ _ avgs => avgs
  | _ => []

/-- The vote counts of the Group Score rows, in row order. -/
def groupRowCounts : List CsvRow → List Nat
  | [] => []
  | CsvRow.group _ count _ :: rest => count :: groupRowCounts rest
  | _ :: rest => groupRowCounts rest

/-- A session in which one device has rated the participant `X` of a subject
named `constructor`. -/
def constructorParticipantState : GameState :=
  (studentSubmitVote (openSubject sessionAB "constructor" "participants")
    "s1" "10.0.0.5" "AA:BB:CC:DD:EE:FF" { items := some [participantItem "X" 4 6] }).1

/-- The rows of the export for the aggregation example. -/
def team1Rows : List CsvRow :=
  [headerRow categoriesAB,
   CsvRow.group "Team1" 3 ["3.67", "6.33"], CsvRow.sub "X" 1 ["4.00", "6.00"],
   CsvRow.sub "Y" 1 ["2.00", "8.00"], CsvRow.sub "Group Evaluation" 1 ["5.00", "5.00"],
   CsvRow.spacer]

/-! ## Reference definitions for missing scores -/

/-- A score as the claim about missing scores rewrites it: a missing or falsy
value (`null`, `false`, the empty string, a zero, `NaN`) becomes the number
`0`, any other value stays. -/
def zeroIfFalsy : Option JsVal → JsVal
  | none => JsVal.num JsNum.zero
  | some JsVal.null => JsVal.num JsNum.zero
  | some (JsVal.bool false) => JsVal.num JsNum.zero
  | some (JsVal.bool true) => JsVal.bool true
  | some (JsVal.num x) => if x.truthy then JsVal.num x else JsVal.num JsNum.zero
  | some (JsVal.str s) => if s = "" then JsVal.num JsNum.zero else JsVal.str s

/-- A vote with the score of every category written out, the missing and
falsy ones as the number `0`. -/
def zeroFilled (categories : List Category) (v : Vote) : Vote :=
  { v with scores := (categories.map fun c => c.id).map fun id =>
      (id, zeroIfFalsy (getProp v.scores id)) }

/-- An item of type `group` with the given values for `A` and `B`. -/
def scoredItem (a b : Option JsVal) : Item :=
  { type := "group", name := none
    scores := (a.map fun x => ("A", x)).toList ++ (b.map fun x => ("B", x)).toList }

/-- A session in which one device has voted for `Team1` with the string
`abc` as the score of `A`. -/
def abcState : GameState :=
  (studentSubmitVote (openSubject sessionAB "Team1" "group")
    "s1" "10.0.0.5" "AA:BB:CC:DD:EE:FF"
    { items := some [scoredItem (some (JsVal.str "abc")) (some (JsVal.num (JsNum.fin 6 1)))] }).1

/-- A session in which three devices have voted for `Team1` with the scores
`4`, `"abc"` and `2` for `A`. -/
def abcMiddleState : GameState :=
  (studentSubmitVote
    (studentSubmitVote
      (studentSubmitVote (openSubject sessionAB "Team1" "group")
        "s1" "10.0.0.5" "AA:BB:CC:DD:EE:FF"
        { items := some [scoredItem (some (JsVal.num (JsNum.fin 4 1)))
            (some (JsVal.num (JsNum.fin 6 1)))] }).1
      "s2" "10.0.0.6" "11:22:33:44:55:66"
      { items := some [scoredItem (some (JsVal.str "abc")) (some (JsVal.num (JsNum.fin 6 1)))] }).1
    "s3" "10.0.0.7" "22:33:44:55:66:77"
    { items := some [scoredItem (some (JsVal.num (JsNum.fin 2 1)))
        (some (JsVal.num (JsNum.fin 6 1)))] }).1

/-- A session in which one device has voted for `Team1` with `A = 4` and no
score for `B`. -/
def missingState : GameState :=
  (studentSubmitVote (openSubject sessionAB "Team1" "group")
    "s1" "10.0.0.5" "AA:BB:CC:DD:EE:FF"
    { items := some [scoredItem (some (JsVal.num (JsNum.fin 4 1))) none] }).1

/-- A vote with every score `"abc"` replaced by the number `0`. -/
def abcAsZero (v : Vote) : Vote :=
  { v with scores := v.scores.map fun e =>
      if e.2 = JsVal.str "abc" then (e.1, JsVal.num JsNum.zero) else e }

/-- The number `2 ^ 1023`, about `8.99e307`, which is a double. -/
def hugeScore : JsVal :=
  JsVal.num (JsNum.fin (2 ^ 200 * 2 ^ 200 * 2 ^ 200 * 2 ^ 200 * 2 ^ 200 * 2 ^ 23) 1)

/-- A session in which two devices have voted for `Team1` with the score
`2 ^ 1023` for `A`. -/
def overflowState : GameState :=
  (studentSubmitVote
    (studentSubmitVote (openSubject sessionAB "Team1" "group")
      "s1" "10.0.0.5" "AA:BB:CC:DD:EE:FF"
      { items := some [scoredItem (some hugeScore) (some (JsVal.num (JsNum.fin 6 1)))] }).1
    "s2" "10.0.0.6" "11:22:33:44:55:66"
    { items := some [scoredItem (some hugeScore) (some (JsVal.num (JsNum.fin 6 1)))] }).1

/-! ## Vote intake -/

theorem mkVote_congr (g h : GameState) (socketId clientIp clientId : String) (item : Item)
    (hs : h.currentSubject = g.currentSubject) (hm : h.votingMode = g.votingMode) :
    mkVote h socketId clientIp clientId item = mkVote g socketId clientIp clientId item := by
  simp [mkVote, displaySubject, hs, hm]

theorem foldl_push_votes (socketId clientIp clientId : String) (items : List Item)
    (g : GameState) :
    items.foldl (fun acc item =>
        { acc with votes := acc.votes ++ [mkVote acc socketId clientIp clientId item] }) g
      = { g with votes := g.votes ++ items.map (mkVote g socketId clientIp clientId) } := by
  induction items generalizing g with
  | nil => simp
  | cons x xs ih =>
    rw [List.foldl_cons, ih]
    have hx : ∀ y, mkVote { g with votes := g.votes ++ [mkVote g socketId clientIp clientId x] }
        socketId clientIp clientId y = mkVote g socketId clientIp clientId y :=
      fun y => mkVote_congr _ _ _ _ _ _ rfl rfl
    simp [hx]

/-- What the handler does once both checks have passed. -/
theorem submit_accepted (g : GameState) (socketId clientIp clientId : String)
    (data : SubmitData) (hopen : g.isVotingOpen = true)
    (hnew : alreadyVoted g clientId = false) :
    studentSubmitVote g socketId clientIp clientId data =
      ({ g with votes := g.votes ++ (data.items.getD []).map (mkVote g socketId clientIp clientId) },
       [Event.stateUpdateAll
         { g with votes := g.votes ++ (data.items.getD []).map (mkVote g socketId clientIp clientId) }]) := by
  simp [studentSubmitVote, hopen, hnew, foldl_push_votes]

/-- What the handler does when the duplicate check fires. -/
theorem submit_duplicate (g : GameState) (socketId clientIp clientId : String)
    (data : SubmitData) (hopen : g.isVotingOpen = true)
    (hdup : alreadyVoted g clientId = true) :
    studentSubmitVote g socketId clientIp clientId data =
      (g, [Event.errorMessage socketId alreadyVotedMsg]) := by
  simp [studentSubmitVote, hopen, hdup]

/-- What the handler does while voting is closed. -/
theorem submit_closed (g : GameState) (socketId clientIp clientId : String)
    (data : SubmitData) (hclosed : g.isVotingOpen = false) :
    studentSubmitVote g socketId clientIp clientId data = (g, []) := by
  simp [studentSubmitVote, hclosed]

theorem alreadyVoted_iff (g : GameState) (clientId : String) :
    alreadyVoted g clientId = true ↔
      ∃ v ∈ g.votes, v.mainSubject = g.currentSubject ∧ v.clientId = clientId := by
  simp [alreadyVoted]

theorem alreadyVoted_eq_false (g : GameState) (clientId : String)
    (h : ∀ v ∈ g.votes, ¬ (v.mainSubject = g.currentSubject ∧ v.clientId = clientId)) :
    alreadyVoted g clientId = false := by
  cases hv : alreadyVoted g clientId with
  | false => rfl
  | true =>
    obtain ⟨v, hv1, hv2⟩ := (alreadyVoted_iff g clientId).1 hv
    exact absurd hv2 (h v hv1)

theorem alreadyVoted_after_accept (g : GameState) (socketId clientIp clientId : String)
    (item : Item) (items : List Item) :
    alreadyVoted
      { g with votes := g.votes ++ (item :: items).map (mkVote g socketId clientIp clientId) }
      clientId = true := by
  rw [alreadyVoted_iff]
  exact ⟨mkVote g socketId clientIp clientId item, by simp, by simp [mkVote]⟩

theorem applyOp_votes_sub (g : GameState) (op : Op) (hop : op.isCreateSession = false)
    (v : Vote) (hv : v ∈ g.votes) : v ∈ (applyOp g op).1.votes := by
  cases op with
  | connect socketId ips => exact hv
  | createSession token data => simp [Op.isCreateSession] at hop
  | selectIp index =>
    simp only [applyOp, hostSelectIp]
    split
    · exact hv
    · exact hv
  | updateStatus data =>
    obtain ⟨a, b, c, d⟩ := data
    cases a <;> cases b <;> cases c <;> cases d <;> exact hv
  | submit socketId clientIp clientId data =>
    simp only [applyOp]
    cases hopen : g.isVotingOpen with
    | false => rw [submit_closed g _ _ _ _ hopen]; exact hv
    | true =>
      cases hdup : alreadyVoted g clientId with
      | true => rw [submit_duplicate g _ _ _ _ hopen hdup]; exact hv
      | false =>
        rw [submit_accepted g _ _ _ _ hopen hdup]
        exact List.mem_append_left _ hv

theorem runOps_votes_sub (ops : List Op) (g : GameState)
    (hops : ∀ op ∈ ops, op.isCreateSession = false) (v : Vote) (hv : v ∈ g.votes) :
    v ∈ (runOps g ops).votes := by
  induction ops generalizing g with
  | nil => exact hv
  | cons op rest ih =>
    exact ih (applyOp g op).1 (fun o ho => hops o (List.mem_cons_of_mem _ ho))
      (applyOp_votes_sub g op (hops op (List.mem_cons_self _ _)) v hv)

theorem runOps_append (a b : List Op) (g : GameState) :
    runOps g (a ++ b) = runOps (runOps g a) b := by
  induction a generalizing g with
  | nil => rfl
  | cons op rest ih => exact ih (applyOp g op).1

theorem runOps_take_succ (ops : List Op) (g : GameState) (n : Nat) (op : Op)
    (h : ops[n]? = some op) :
    runOps g (ops.take (n + 1)) = (applyOp (runOps g (ops.take n)) op).1 := by
  rw [List.take_succ, h, runOps_append]
  rfl

/-- C1 (as stated, refuted): two runs of one device in an open session, in each
of which `currentSubject` and `isVotingOpen` are the same after every step,
and the later submission of the device is accepted.  In the first run the
first submission carries no item: it is accepted and records nothing, and the
second submission is broadcast and takes `votes` from 0 to 1 records.  In the
second run the host sends `host-create-session` between the two submissions:
the log goes 1, 0, 1 records and the second submission is broadcast. -/
theorem duplicate_suppression_counterexample :
    (openedState "Team1" "group").isVotingOpen = true
    ∧ (∀ n ≤ 2,
        (runOps (openedState "Team1" "group")
          ([Op.submit "s1" "10.0.0.5" "AA:BB:CC:DD:EE:FF" { items := some [] },
            Op.submit "s1" "10.0.0.5" "AA:BB:CC:DD:EE:FF"
              { items := some [groupItem 4 6] }].take n)).currentSubject = "Team1"
        ∧ (runOps (openedState "Team1" "group")
          ([Op.submit "s1" "10.0.0.5" "AA:BB:CC:DD:EE:FF" { items := some [] },
            Op.submit "s1" "10.0.0.5" "AA:BB:CC:DD:EE:FF"
              { items := some [groupItem 4 6] }].take n)).isVotingOpen = true)
    ∧ studentSubmitVote (openedState "Team1" "group") "s1" "10.0.0.5" "AA:BB:CC:DD:EE:FF"
        { items := some [] }
      = (openedState "Team1" "group", [Event.stateUpdateAll (openedState "Team1" "group")])
    ∧ (studentSubmitVote (openedState "Team1" "group") "s1" "10.0.0.5" "AA:BB:CC:DD:EE:FF"
        { items := some [groupItem 4 6] }).2
      = [Event.stateUpdateAll
          (studentSubmitVote (openedState "Team1" "group") "s1" "10.0.0.5" "AA:BB:CC:DD:EE:FF"
            { items := some [groupItem 4 6] }).1]
    ∧ (runOps (openedState "Team1" "group")
        [Op.submit "s1" "10.0.0.5" "AA:BB:CC:DD:EE:FF" { items := some [] }]).votes.length = 0
    ∧ (runOps (openedState "Team1" "group")
        [Op.submit "s1" "10.0.0.5" "AA:BB:CC:DD:EE:FF" { items := some [] },
         Op.submit "s1" "10.0.0.5" "AA:BB:CC:DD:EE:FF"
           { items := some [groupItem 4 6] }]).votes.length = 1
    ∧ (∀ n ≤ 3,
        (runOps (openedState "Team1" "group")
          ([Op.submit "s1" "10.0.0.5" "AA:BB:CC:DD:EE:FF" { items := some [groupItem 4 6] },
            Op.createSession "k3x9q" { name := "Demo", categories := categoriesAB },
            Op.submit "s1" "10.0.0.5" "AA:BB:CC:DD:EE:FF"
              { items := some [groupItem 9 9] }].take n)).currentSubject = "Team1"
        ∧ (runOps (openedState "Team1" "group")
          ([Op.submit "s1" "10.0.0.5" "AA:BB:CC:DD:EE:FF" { items := some [groupItem 4 6] },
            Op.createSession "k3x9q" { name := "Demo", categories := categoriesAB },
            Op.submit "s1" "10.0.0.5" "AA:BB:CC:DD:EE:FF"
              { items := some [groupItem 9 9] }].take n)).isVotingOpen = true)
    ∧ (runOps (openedState "Team1" "group")
        [Op.submit "s1" "10.0.0.5" "AA:BB:CC:DD:EE:FF"
          { items := some [groupItem 4 6] }]).votes.length = 1
    ∧ (runOps (openedState "Team1" "group")
        [Op.submit "s1" "10.0.0.5" "AA:BB:CC:DD:EE:FF" { items := some [groupItem 4 6] },
         Op.createSession "k3x9q" { name := "Demo", categories := categoriesAB }]).votes.length = 0
    ∧ (runOps (openedState "Team1" "group")
        [Op.submit "s1" "10.0.0.5" "AA:BB:CC:DD:EE:FF" { items := some [groupItem 4 6] },
         Op.createSession "k3x9q" { name := "Demo", categories := categoriesAB },
         Op.submit "s1" "10.0.0.5" "AA:BB:CC:DD:EE:FF"
           { items := some [groupItem 9 9] }]).votes.length = 1
    ∧ (studentSubmitVote
        (runOps (openedState "Team1" "group")
          [Op.submit "s1" "10.0.0.5" "AA:BB:CC:DD:EE:FF" { items := some [groupItem 4 6] },
           Op.createSession "k3x9q" { name := "Demo", categories := categoriesAB }])
        "s1" "10.0.0.5" "AA:BB:CC:DD:EE:FF" { items := some [groupItem 9 9] }).2
      = [Event.stateUpdateAll
          (runOps (openedState "Team1" "group")
            [Op.submit "s1" "10.0.0.5" "AA:BB:CC:DD:EE:FF" { items := some [groupItem 4 6] },
             Op.createSession "k3x9q" { name := "Demo", categories := categoriesAB },
             Op.submit "s1" "10.0.0.5" "AA:BB:CC:DD:EE:FF"
               { items := some [groupItem 9 9] }])] := by
  refine ⟨by decide, by decide, by decide, by decide, by decide, by decide, by decide,
    by decide, by decide, by decide, by decide⟩

/-- C1 (amended): take a state with `isVotingOpen` true, a submission of a
device carrying at least one item, and any sequence `later` of operations
after it (connections, host messages, submissions of any device) that holds
no `host-create-session` and after every step of which `currentSubject` and
`isVotingOpen` are what they were.  The first submission is accepted (its
records are appended and the state is broadcast) when the device has no record
for `currentSubject`, and rejected with an error notice, the state unchanged,
when it has one.  Every submission of the device in `later` is rejected with
an error notice and leaves the state, hence the length of `votes`, unchanged. -/
theorem duplicate_suppression (g : GameState) (socketId clientIp clientId : String)
    (data : SubmitData) (item : Item) (items : List Item) (later : List Op)
    (hopen : g.isVotingOpen = true)
    (hitems : data.items = some (item :: items))
    (hnocreate : ∀ op ∈ later, op.isCreateSession = false)
    (hstay : ∀ n ≤ later.length,
      (runOps g (Op.submit socketId clientIp clientId data :: later.take n)).currentSubject
          = g.currentSubject
      ∧ (runOps g (Op.submit socketId clientIp clientId data :: later.take n)).isVotingOpen
          = true) :
    (alreadyVoted g clientId = false →
      studentSubmitVote g socketId clientIp clientId data
        = ({ g with votes := g.votes ++ (item :: items).map (mkVote g socketId clientIp clientId) },
           [Event.stateUpdateAll
             { g with votes := g.votes
                        ++ (item :: items).map (mkVote g socketId clientIp clientId) }]))
    ∧ (alreadyVoted g clientId = true →
      studentSubmitVote g socketId clientIp clientId data
        = (g, [Event.errorMessage socketId alreadyVotedMsg]))
    ∧ ∀ (n : Nat) (socketId2 clientIp2 : String) (data2 : SubmitData),
        later[n]? = some (Op.submit socketId2 clientIp2 clientId data2) →
        studentSubmitVote
            (runOps g (Op.submit socketId clientIp clientId data :: later.take n))
            socketId2 clientIp2 clientId data2
          = (runOps g (Op.submit socketId clientIp clientId data :: later.take n),
             [Event.errorMessage socketId2 alreadyVotedMsg])
        ∧ runOps g (Op.submit socketId clientIp clientId data :: later.take (n + 1))
          = runOps g (Op.submit socketId clientIp clientId data :: later.take n)
        ∧ (runOps g (Op.submit socketId clientIp clientId data :: later.take (n + 1))).votes.length
          = (runOps g (Op.submit socketId clientIp clientId data :: later.take n)).votes.length := by
  have hacc : alreadyVoted g clientId = false →
      studentSubmitVote g socketId clientIp clientId data
        = ({ g with votes := g.votes ++ (item :: items).map (mkVote g socketId clientIp clientId) },
           [Event.stateUpdateAll
             { g with votes := g.votes
                        ++ (item :: items).map (mkVote g socketId clientIp clientId) }]) := by
    intro hnew
    have h1 := submit_accepted g socketId clientIp clientId data hopen hnew
    rw [hitems] at h1
    simpa only [Option.getD_some] using h1
  have hrej : alreadyVoted g clientId = true →
      studentSubmitVote g socketId clientIp clientId data
        = (g, [Event.errorMessage socketId alreadyVotedMsg]) :=
    fun hdup => submit_duplicate g socketId clientIp clientId data hopen hdup
  have hrec : ∃ w ∈ (studentSubmitVote g socketId clientIp clientId data).1.votes,
      w.mainSubject = g.currentSubject ∧ w.clientId = clientId := by
    cases hv : alreadyVoted g clientId with
    | true =>
      rw [hrej hv]
      exact (alreadyVoted_iff g clientId).1 hv
    | false =>
      rw [hacc hv]
      exact ⟨mkVote g socketId clientIp clientId item, by simp, by simp [mkVote]⟩
  have hstep : ∀ (n : Nat) (socketId2 clientIp2 : String) (data2 : SubmitData),
      later[n]? = some (Op.submit socketId2 clientIp2 clientId data2) →
      studentSubmitVote
          (runOps g (Op.submit socketId clientIp clientId data :: later.take n))
          socketId2 clientIp2 clientId data2
        = (runOps g (Op.submit socketId clientIp clientId data :: later.take n),
           [Event.errorMessage socketId2 alreadyVotedMsg]) := by
    intro n socketId2 clientIp2 data2 hn
    have hlt : n < later.length := (List.getElem?_eq_some_iff.1 hn).1
    obtain ⟨hsub, hop⟩ := hstay n (Nat.le_of_lt hlt)
    obtain ⟨w, hw, hw1, hw2⟩ := hrec
    have hmem : w ∈ (runOps g (Op.submit socketId clientIp clientId data :: later.take n)).votes :=
      runOps_votes_sub (later.take n) _
        (fun o ho => hnocreate o (List.mem_of_mem_take ho)) w hw
    exact submit_duplicate _ socketId2 clientIp2 clientId data2 hop
      ((alreadyVoted_iff _ clientId).2 ⟨w, hmem, hw1.trans hsub.symm, hw2⟩)
  refine ⟨hacc, hrej, ?_⟩
  intro n socketId2 clientIp2 data2 hn
  have h1 := hstep n socketId2 clientIp2 data2 hn
  have h2 : runOps g (Op.submit socketId clientIp clientId data :: later.take (n + 1))
      = runOps g (Op.submit socketId clientIp clientId data :: later.take n) := by
    show runOps (applyOp g (Op.submit socketId clientIp clientId data)).1 (later.take (n + 1))
      = runOps (applyOp g (Op.submit socketId clientIp clientId data)).1 (later.take n)
    rw [runOps_take_succ later _ n _ hn]
    exact congrArg Prod.fst h1
  exact ⟨h1, h2, by rw [h2]⟩

theorem duplicate_suppression_witness :
    (runOps (openedState "Team1" "group")
        (Op.submit "s1" "10.0.0.5" "AA:BB:CC:DD:EE:FF" { items := some [groupItem 4 6] }
          :: interleavedOps.take 3)).votes.map (fun v => v.clientId)
      = ["AA:BB:CC:DD:EE:FF", "11:22:33:44:55:66"]
    ∧ studentSubmitVote
        (runOps (openedState "Team1" "group")
          (Op.submit "s1" "10.0.0.5" "AA:BB:CC:DD:EE:FF" { items := some [groupItem 4 6] }
            :: interleavedOps.take 3))
        "s2" "10.0.0.5" "AA:BB:CC:DD:EE:FF" { items := some [participantItem "X" 9 9] }
      = (runOps (openedState "Team1" "group")
          (Op.submit "s1" "10.0.0.5" "AA:BB:CC:DD:EE:FF" { items := some [groupItem 4 6] }
            :: interleavedOps.take 3),
         [Event.errorMessage "s2" alreadyVotedMsg])
    ∧ (runOps (openedState "Team1" "group")
        (Op.submit "s1" "10.0.0.5" "AA:BB:CC:DD:EE:FF" { items := some [groupItem 4 6] }
          :: interleavedOps)).votes.length = 2 :=
  ⟨by decide,
   ((duplicate_suppression (openedState "Team1" "group") "s1" "10.0.0.5" "AA:BB:CC:DD:EE:FF"
      { items := some [groupItem 4 6] } (groupItem 4 6) [] interleavedOps
      (by decide) rfl (by decide) (by decide)).2.2 3 "s2" "10.0.0.5"
      { items := some [participantItem "X" 9 9] } rfl).1,
   by decide⟩

theorem singleRun_nil (s d : String) : SingleRun [] s d :=
  ⟨[], [], [], "", "", rfl, by simp, by simp, by simp⟩

theorem singleRun_append_other (votes news : List Vote) (s d : String)
    (h : SingleRun votes s d) (hn : ∀ v ∈ news, ¬ (v.mainSubject = s ∧ v.clientId = d)) :
    SingleRun (votes ++ news) s d := by
  obtain ⟨before, run, after, sock, ip, hv, hrun, hb, ha⟩ := h
  refine ⟨before, run, after ++ news, sock, ip, by simp [hv], hrun, hb, ?_⟩
  intro v hv'
  rcases List.mem_append.1 hv' with h1 | h1
  · exact ha v h1
  · exact hn v h1

theorem singleRun_append_new (votes news : List Vote) (s d sock ip : String)
    (hold : ∀ v ∈ votes, ¬ (v.mainSubject = s ∧ v.clientId = d))
    (hn : ∀ v ∈ news, v.mainSubject = s ∧ v.clientId = d ∧ v.voterId = sock ∧ v.voterIp = ip) :
    SingleRun (votes ++ news) s d :=
  ⟨votes, news, [], sock, ip, by simp, hn, hold, by simp⟩

theorem singleRun_submit (g : GameState) (socketId clientIp clientId : String)
    (data : SubmitData) (h : ∀ s d, SingleRun g.votes s d) (s d : String) :
    SingleRun (studentSubmitVote g socketId clientIp clientId data).1.votes s d := by
  cases hopen : g.isVotingOpen with
  | false => rw [submit_closed g _ _ _ _ hopen]; exact h s d
  | true =>
    cases hdup : alreadyVoted g clientId with
    | true => rw [submit_duplicate g _ _ _ _ hopen hdup]; exact h s d
    | false =>
      rw [submit_accepted g _ _ _ _ hopen hdup]
      have hold : ∀ v ∈ g.votes, ¬ (v.mainSubject = g.currentSubject ∧ v.clientId = clientId) := by
        intro v hv hc
        have := (alreadyVoted_iff g clientId).2 ⟨v, hv, hc⟩
        rw [hdup] at this
        exact Bool.false_ne_true this
      by_cases hsd : g.currentSubject = s ∧ clientId = d
      · obtain ⟨rfl, rfl⟩ := hsd
        refine singleRun_append_new _ _ _ _ socketId clientIp hold ?_
        intro v hv
        obtain ⟨item, _, rfl⟩ := List.mem_map.1 hv
        simp [mkVote]
      · refine singleRun_append_other _ _ _ _ (h s d) ?_
        intro v hv hc
        obtain ⟨item, _, rfl⟩ := List.mem_map.1 hv
        exact hsd (by simpa [mkVote] using hc)

theorem singleRun_reachable (g : GameState) (h : Reachable g) :
    ∀ s d, SingleRun g.votes s d := by
  induction h with
  | init ips => exact singleRun_nil
  | connect socketId ips _ ih => exact ih
  | createSession token data _ _ => exact singleRun_nil
  | @selectIp g0 index _ ih =>
    intro s d
    have : (hostSelectIp g0 index).1.votes = g0.votes := by
      unfold hostSelectIp; split <;> rfl
    rw [this]; exact ih s d
  | @updateStatus g0 data _ ih =>
    intro s d
    have : (hostUpdateStatus g0 data).1.votes = g0.votes := by
      unfold hostUpdateStatus
      cases data.currentSubject <;> cases data.isVotingOpen <;>
        cases data.currentParticipants <;> cases data.votingMode <;> rfl
    rw [this]; exact ih s d
  | submit socketId clientIp clientId data _ ih =>
    exact singleRun_submit _ _ _ _ _ ih

theorem twoItemState_reachable : Reachable twoItemState :=
  Reachable.submit "s1" "10.0.0.5" "AA:BB:CC:DD:EE:FF"
    { items := some [groupItem 5 5, participantItem "X" 4 6] }
    (Reachable.updateStatus
      { currentSubject := some "Team1", isVotingOpen := some true,
        currentParticipants := none, votingMode := some "mixed" }
      (Reachable.init []))

/-- C2 (as stated, refuted): one accepted submission with two items leaves a
reachable state whose log holds two records with the same `mainSubject` and
the same device identifier. -/
theorem one_vote_invariant_counterexample :
    Reachable twoItemState
    ∧ (twoItemState.votes.filter fun v =>
        decide (v.mainSubject = "Team1") && decide (v.clientId = "AA:BB:CC:DD:EE:FF")).length = 2 :=
  ⟨twoItemState_reachable, by decide⟩

/-- C2 (amended): in every reachable state, for every `mainSubject` and every
device identifier, the records of `votes` with that `mainSubject` and that
device identifier are those of at most one submission: they are consecutive
in the log and carry one socket and one address. -/
theorem one_vote_invariant (g : GameState) (h : Reachable g) (s d : String) :
    SingleRun g.votes s d :=
  singleRun_reachable g h s d

theorem one_vote_invariant_witness :
    Reachable twoItemState ∧ SingleRun twoItemState.votes "Team1" "AA:BB:CC:DD:EE:FF" :=
  ⟨twoItemState_reachable,
   one_vote_invariant twoItemState twoItemState_reachable "Team1" "AA:BB:CC:DD:EE:FF"⟩

/-- C3: while `isVotingOpen` is false, the handler of `student-submit-vote`
returns the session state exactly as it was, whatever the device and the
payload. -/
theorem closed_gate_suppression (g : GameState) (socketId clientIp clientId : String)
    (data : SubmitData) (hclosed : g.isVotingOpen = false) :
    (studentSubmitVote g socketId clientIp clientId data).1 = g := by
  rw [submit_closed g _ _ _ _ hclosed]

theorem closed_gate_suppression_witness :
    (initialState []).isVotingOpen = false
    ∧ (studentSubmitVote (initialState []) "s1" "10.0.0.5" "AA:BB:CC:DD:EE:FF"
        { items := some [groupItem 4 6] }).1 = initialState [] :=
  ⟨rfl, closed_gate_suppression (initialState []) "s1" "10.0.0.5" "AA:BB:CC:DD:EE:FF"
    { items := some [groupItem 4 6] } rfl⟩

/-- C4 (as stated, refuted): with voting closed, a submission makes the
handler send nothing: the list of events of the step is empty, so it holds no
error notice. -/
theorem closed_rejection_counterexample :
    (initialState []).isVotingOpen = false
    ∧ (studentSubmitVote (initialState []) "s1" "10.0.0.5" "AA:BB:CC:DD:EE:FF"
        { items := some [groupItem 4 6] }).2 = []
    ∧ Event.errorMessage "s1" alreadyVotedMsg ∉
        (studentSubmitVote (initialState []) "s1" "10.0.0.5" "AA:BB:CC:DD:EE:FF"
          { items := some [groupItem 4 6] }).2 := by
  refine ⟨by decide, by decide, by decide⟩

/-- C4 (amended): while `isVotingOpen` is false the rejection is silent: for
every payload the handler sends no event at all, neither an error notice to
the submitter nor a state broadcast. -/
theorem closed_rejection_silent (g : GameState) (socketId clientIp clientId : String)
    (data : SubmitData) (hclosed : g.isVotingOpen = false) :
    (studentSubmitVote g socketId clientIp clientId data).2 = []
    ∧ ∀ e : Event, e ∉ (studentSubmitVote g socketId clientIp clientId data).2 := by
  rw [submit_closed g _ _ _ _ hclosed]
  simp

theorem closed_rejection_silent_witness :
    (initialState []).isVotingOpen = false
    ∧ (studentSubmitVote (initialState []) "s2" "10.0.0.6" "11:22:33:44:55:66"
        { items := none }).2 = [] :=
  ⟨rfl, (closed_rejection_silent (initialState []) "s2" "10.0.0.6" "11:22:33:44:55:66"
    { items := none } rfl).1⟩

/-- C5: in an open session whose log already holds a record of the submitter's
device for `currentSubject`, a submission with any payload leaves the whole
state unchanged and sends exactly one event, the error notice to the
submitting socket; in particular it sends no state broadcast. -/
theorem duplicate_rejection (g : GameState) (socketId clientIp clientId : String)
    (data : SubmitData) (hopen : g.isVotingOpen = true)
    (hdup : ∃ v ∈ g.votes, v.mainSubject = g.currentSubject ∧ v.clientId = clientId) :
    (studentSubmitVote g socketId clientIp clientId data).1 = g
    ∧ (studentSubmitVote g socketId clientIp clientId data).2
        = [Event.errorMessage socketId alreadyVotedMsg]
    ∧ ∀ h : GameState,
        Event.stateUpdateAll h ∉ (studentSubmitVote g socketId clientIp clientId data).2 := by
  rw [submit_duplicate g _ _ _ _ hopen ((alreadyVoted_iff g clientId).2 hdup)]
  simp

theorem duplicate_rejection_witness :
    (studentSubmitVote twoItemState "s9" "10.0.0.5" "AA:BB:CC:DD:EE:FF"
        { items := some [groupItem 1 1] }).1 = twoItemState
    ∧ (studentSubmitVote twoItemState "s9" "10.0.0.5" "AA:BB:CC:DD:EE:FF"
        { items := some [groupItem 1 1] }).2 = [Event.errorMessage "s9" alreadyVotedMsg] :=
  have h := duplicate_rejection twoItemState "s9" "10.0.0.5" "AA:BB:CC:DD:EE:FF"
    { items := some [groupItem 1 1] } (by decide) (by decide)
  ⟨h.1, h.2.1⟩

/-- C6: in an open session in which the device has no record for
`currentSubject`, a submission whose item list is `items` yields the old state
with `votes` replaced by the old log followed by one new record per item, in
item order; the record of item `k` has `mainSubject = currentSubject`, the
scores of item `k` and the submitter's device identifier. -/
theorem accepted_submission_expands (g : GameState) (socketId clientIp clientId : String)
    (data : SubmitData) (items : List Item) (hopen : g.isVotingOpen = true)
    (hnew : ∀ v ∈ g.votes, ¬ (v.mainSubject = g.currentSubject ∧ v.clientId = clientId))
    (hitems : data.items.getD [] = items) :
    ∃ news : List Vote,
      (studentSubmitVote g socketId clientIp clientId data).1 = { g with votes := g.votes ++ news }
      ∧ news.length = items.length
      ∧ ∀ (k : Nat) (item : Item), items[k]? = some item →
          ∃ v, news[k]? = some v ∧ v.mainSubject = g.currentSubject
            ∧ v.scores = item.scores ∧ v.clientId = clientId := by
  refine ⟨items.map (mkVote g socketId clientIp clientId), ?_, by simp, ?_⟩
  · rw [submit_accepted g _ _ _ _ hopen (alreadyVoted_eq_false g clientId hnew), hitems]
  · intro k item hk
    exact ⟨mkVote g socketId clientIp clientId item, by simp [hk], rfl, rfl, rfl⟩

theorem accepted_submission_expands_witness :
    ∃ news : List Vote,
      twoItemState = { openedState "Team1" "mixed" with votes := [] ++ news }
      ∧ news.length = 2 := by
  obtain ⟨news, h1, h2, _⟩ := accepted_submission_expands (openedState "Team1" "mixed")
    "s1" "10.0.0.5" "AA:BB:CC:DD:EE:FF"
    { items := some [groupItem 5 5, participantItem "X" 4 6] }
    [groupItem 5 5, participantItem "X" 4 6] (by decide) (by decide) rfl
  exact ⟨news, h1, h2⟩

/-- C7: the record an accepted submission appends for its item `k` has the
subject `currentSubject` when the item type is `group` and the mode is not
`mixed`, `currentSubject ++ " (Group)"` when the type is `group` and the mode
is `mixed`, and `currentSubject ++ " - " ++ name` when the type is
`participant`. -/
theorem mode_dependent_labeling (g : GameState) (socketId clientIp clientId : String)
    (data : SubmitData) (k : Nat) (item : Item) (hopen : g.isVotingOpen = true)
    (hnew : ∀ v ∈ g.votes, ¬ (v.mainSubject = g.currentSubject ∧ v.clientId = clientId))
    (hk : (data.items.getD [])[k]? = some item) :
    ∃ v, (studentSubmitVote g socketId clientIp clientId data).1.votes[g.votes.length + k]? = some v
      ∧ (item.type = "group" → g.votingMode ≠ "mixed" → v.subject = g.currentSubject)
      ∧ (item.type = "group" → g.votingMode = "mixed" →
          v.subject = g.currentSubject ++ " (Group)")
      ∧ (∀ name, item.type = "participant" → item.name = some name →
          v.subject = g.currentSubject ++ " - " ++ name) := by
  refine ⟨mkVote g socketId clientIp clientId item, ?_, ?_, ?_, ?_⟩
  · rw [submit_accepted g _ _ _ _ hopen (alreadyVoted_eq_false g clientId hnew)]
    simp [List.getElem?_append_right, hk]
  · intro ht hm; simp [mkVote, displaySubject, ht, hm]
  · intro ht hm; simp [mkVote, displaySubject, ht, hm]
  · intro name ht hn
    have hg : item.type ≠ "group" := by rw [ht]; decide
    simp [mkVote, displaySubject, ht, hn, templateName]

theorem mode_dependent_labeling_witness :
    (∃ v, (studentSubmitVote (openedState "Team1" "group") "s1" "10.0.0.5" "AA:BB:CC:DD:EE:FF"
        { items := some [groupItem 4 6] }).1.votes[0]? = some v ∧ v.subject = "Team1")
    ∧ (∃ v, (studentSubmitVote (openedState "Team1" "mixed") "s1" "10.0.0.5" "AA:BB:CC:DD:EE:FF"
        { items := some [groupItem 4 6] }).1.votes[0]? = some v ∧ v.subject = "Team1 (Group)") := by
  obtain ⟨v, h1, h2, _, _⟩ := mode_dependent_labeling (openedState "Team1" "group")
    "s1" "10.0.0.5" "AA:BB:CC:DD:EE:FF" { items := some [groupItem 4 6] } 0 (groupItem 4 6)
    (by decide) (by decide) rfl
  obtain ⟨w, h3, _, h4, _⟩ := mode_dependent_labeling (openedState "Team1" "mixed")
    "s1" "10.0.0.5" "AA:BB:CC:DD:EE:FF" { items := some [groupItem 4 6] } 0 (groupItem 4 6)
    (by decide) (by decide) rfl
  exact ⟨⟨v, h1, h2 rfl (by decide)⟩, ⟨w, h3, h4 rfl rfl⟩⟩


/-! ## Plain objects as maps -/

theorem getProp_map {α : Type} (ks : List String) (f : String → α) (k : String) :
    getProp (ks.map fun k => (k, f k)) k = if k ∈ ks then some (f k) else none := by
  induction ks with
  | nil => simp [getProp]
  | cons a as ih =>
    by_cases h : a = k
    · subst h; simp [getProp]
    · have h' : ¬ k = a := fun e => h e.symm
      simp only [getProp, List.map_cons, List.find?_cons, h, decide_False, List.mem_cons, h',
        false_or] at ih ⊢
      exact ih

theorem any_map_key {α : Type} (ks : List String) (f : String → α) (k : String) :
    (ks.map fun k => (k, f k)).any (fun e => decide (e.1 = k)) = decide (k ∈ ks) := by
  induction ks with
  | nil => simp
  | cons a as ih =>
    simp only [List.map_cons, List.any_cons, ih, List.mem_cons]
    by_cases h : a = k
    · subst h; simp
    · have h' : ¬ k = a := fun e => h e.symm
      simp [h, h']

theorem setProp_map {α : Type} (ks : List String) (f : String → α) (k : String) (x : α) :
    setProp (ks.map fun k => (k, f k)) k x
      = (if k ∈ ks then ks else ks ++ [k]).map fun j => (j, Function.update f k x j) := by
  unfold setProp
  rw [any_map_key]
  by_cases h : k ∈ ks
  · simp only [h, decide_True, if_true, List.map_map]
    apply List.map_congr_left
    intro j _
    by_cases hj : j = k
    · subst hj; simp
    · simp [hj, Function.update_noteq hj]
  · simp only [h, decide_False, if_false, List.map_append, List.map_cons, List.map_nil,
      Function.update_same, Bool.false_eq_true]
    congr 1
    apply List.map_congr_left
    intro j hj
    have : j ≠ k := fun e => h (e ▸ hj)
    simp [Function.update_noteq this]

theorem mem_firstSeen (l : List String) (x : String) : x ∈ firstSeen l ↔ x ∈ l := by
  induction l with
  | nil => simp [firstSeen]
  | cons a as ih =>
    simp only [firstSeen, List.mem_cons, List.mem_filter, ih, decide_eq_true_eq]
    by_cases h : x = a
    · simp [h]
    · simp [h]

theorem nodup_firstSeen (l : List String) : (firstSeen l).Nodup := by
  induction l with
  | nil => simp [firstSeen]
  | cons a as ih =>
    simp only [firstSeen, List.nodup_cons, List.mem_filter, decide_eq_true_eq]
    exact ⟨fun h => h.2 rfl, ih.filter _⟩

theorem firstSeen_append_singleton (l : List String) (x : String) :
    firstSeen (l ++ [x]) = if x ∈ l then firstSeen l else firstSeen l ++ [x] := by
  induction l with
  | nil => simp [firstSeen]
  | cons a as ih =>
    show a :: (firstSeen (as ++ [x])).filter (fun y => decide (y ≠ a))
      = if x ∈ a :: as then a :: (firstSeen as).filter (fun y => decide (y ≠ a))
        else a :: (firstSeen as).filter (fun y => decide (y ≠ a)) ++ [x]
    rw [ih]
    by_cases h1 : x ∈ as
    · simp [h1]
    · by_cases h2 : x = a
      · subst h2; simp [h1, List.filter_append]
      · simp [h1, h2, List.filter_append]

theorem pushVote_entries (key : Vote → String) (ks : List String) (f : String → List Vote)
    (v : Vote) (hv : key v ∉ objectPrototypeKeys) :
    pushVote key (ks.map fun k => (k, f k)) v
      = some ((if key v ∈ ks then ks else ks ++ [key v]).map fun j =>
          (j, Function.update f (key v) ((if key v ∈ ks then f (key v) else []) ++ [v]) j)) := by
  unfold pushVote
  rw [if_neg hv]
  have hg := getProp_map ks f (key v)
  by_cases h : key v ∈ ks
  · rw [if_pos h] at hg
    simp only [hg, h, if_true, Option.isNone_some, Bool.false_eq_true, if_false,
      Option.getD_some, setProp_map]
  · rw [if_neg h] at hg
    have hg2 := getProp_map (ks ++ [key v]) (Function.update f (key v) []) (key v)
    simp only [List.mem_append, List.mem_singleton, or_true, if_true,
      Function.update_same] at hg2
    simp only [hg, h, if_false, Option.isNone_none, if_true, setProp_map, hg2,
      Option.getD_some, List.mem_append, List.mem_singleton, or_true, Function.update_idem]

theorem pushVote_map (key : Vote → String) (l : List Vote) (v : Vote)
    (hv : key v ∉ objectPrototypeKeys) :
    pushVote key ((firstSeen (l.map key)).map fun k => (k, l.filter fun w => decide (key w = k))) v
      = some ((firstSeen ((l ++ [v]).map key)).map
          fun k => (k, (l ++ [v]).filter fun w => decide (key w = k))) := by
  rw [pushVote_entries key _ (fun k => l.filter fun w => decide (key w = k)) v hv]
  simp only [mem_firstSeen, List.map_append, List.map_cons, List.map_nil,
    firstSeen_append_singleton]
  congr 1
  apply List.map_congr_left
  intro j _
  by_cases h : key v ∈ l.map key
  · by_cases hj : j = key v
    · subst hj; simp [h, List.filter_append]
    · have hj' : ¬ key v = j := fun e => hj e.symm
      simp [Function.update_noteq hj, List.filter_append, hj']
  · have hnone : l.filter (fun w => decide (key w = key v)) = [] := by
      rw [List.filter_eq_nil_iff]
      intro w hw hk
      exact h (List.mem_map.2 ⟨w, hw, of_decide_eq_true hk⟩)
    by_cases hj : j = key v
    · subst hj; simp [h, List.filter_append, hnone]
    · have hj' : ¬ key v = j := fun e => hj e.symm
      simp [Function.update_noteq hj, List.filter_append, hj']

/-- The object built by the grouping `reduce`: one property per distinct key,
created in order of first occurrence, holding the votes with that key in log
order. -/
theorem groupVotes_eq (key : Vote → String) (votes : List Vote)
    (h : ∀ v ∈ votes, key v ∉ objectPrototypeKeys) :
    groupVotes key votes
      = some ((firstSeen (votes.map key)).map
          fun k => (k, votes.filter fun w => decide (key w = k))) := by
  induction votes using List.reverseRecOn with
  | nil => simp [groupVotes, firstSeen]
  | append_singleton l v ih =>
    have hl : ∀ w ∈ l, key w ∉ objectPrototypeKeys := fun w hw => h w (by simp [hw])
    have hv : key v ∉ objectPrototypeKeys := h v (by simp)
    unfold groupVotes at ih ⊢
    rw [List.foldlM_append, ih hl]
    simp only [List.foldlM_cons, List.foldlM_nil, Option.some_bind, Option.bind_eq_bind]
    rw [pushVote_map key l v hv]
    simp

/-- The grouping throws as soon as one key is an inherited name. -/
theorem groupVotes_none (key : Vote → String) (votes : List Vote) (v : Vote) (hv : v ∈ votes)
    (hk : key v ∈ objectPrototypeKeys) : groupVotes key votes = none := by
  obtain ⟨l1, l2, rfl⟩ := List.append_of_mem hv
  unfold groupVotes
  rw [List.foldlM_append]
  cases h1 : List.foldlM (pushVote key) [] l1 with
  | none => rfl
  | some acc =>
    have : pushVote key acc v = none := by simp [pushVote, hk]
    simp [List.foldlM_cons, this]

theorem objectEntries_map {α : Type} (ks : List String) (f : String → α) :
    objectEntries (ks.map fun k => (k, f k)) = (keyOrder ks).map fun k => (k, f k) := by
  unfold objectEntries keyOrder
  rw [List.map_append, List.filter_map, List.filter_map]
  congr 1
  exact (List.map_insertionSort
    (fun a b : String => (arrayIndex a).getD 0 ≤ (arrayIndex b).getD 0)
    (fun a b : String × α => (arrayIndex a.1).getD 0 ≤ (arrayIndex b.1).getD 0)
    (fun k => (k, f k)) _ (fun a _ b _ => Iff.rfl)).symm

/-! ## CSV export -/

theorem groupBlock_eq (categories : List Category) (votes : List Vote) (g : String)
    (h : NoInheritedKey votes) :
    groupBlock categories g (votesOfMain g votes) = some (expectedBlock categories votes g) := by
  have hs : ∀ v ∈ votesOfMain g votes, v.subject ∉ objectPrototypeKeys :=
    fun v hv => (h v (List.mem_filter.1 hv).1).2
  unfold groupBlock
  rw [groupVotes_eq _ _ hs]
  simp only [objectEntries_map, subRows, List.map_map]
  rfl

theorem groupBlocks_eq (categories : List Category) (votes : List Vote) (gs : List String)
    (h : NoInheritedKey votes) :
    groupBlocks categories (gs.map fun g => (g, votesOfMain g votes))
      = some (gs.map (expectedBlock categories votes)).flatten := by
  induction gs with
  | nil => rfl
  | cons g rest ih =>
    simp only [List.map_cons, groupBlocks, groupBlock_eq categories votes g h, ih,
      Option.map_some', List.flatten_cons]

/-- The rows of the export when no grouping key is an inherited name: the
header, then for each distinct main subject, in property order, the rows of
its group. -/
theorem exportRows_eq (categories : List Category) (votes : List Vote)
    (h : NoInheritedKey votes) :
    exportRows categories votes
      = some (headerRow categories ::
          ((keyOrder (firstSeen (votes.map fun v => v.mainSubject))).map
            (expectedBlock categories votes)).flatten) := by
  have hm : ∀ v ∈ votes, v.mainSubject ∉ objectPrototypeKeys := fun v hv => (h v hv).1
  unfold exportRows
  rw [groupVotes_eq _ _ hm]
  simp only [objectEntries_map]
  have := groupBlocks_eq categories votes
    (keyOrder (firstSeen (votes.map fun v => v.mainSubject))) h
  unfold votesOfMain at this
  rw [this]
  rfl

theorem groupRowSubjects_map_sub {α : Type} (f : α → String) (c : α → Nat)
    (a : α → List String) (l : List α) (rest : List CsvRow) :
    groupRowSubjects (l.map (fun s => CsvRow.sub (f s) (c s) (a s)) ++ rest)
      = groupRowSubjects rest := by
  induction l with
  | nil => rfl
  | cons e es ih => simpa [groupRowSubjects] using ih

theorem expectedBlock_append (categories : List Category) (votes : List Vote) (g : String)
    (rest : List CsvRow) :
    expectedBlock categories votes g ++ rest
      = CsvRow.group g (votesOfMain g votes).length (catAvgs categories (votesOfMain g votes))
        :: ((keyOrder (firstSeen ((votesOfMain g votes).map fun v => v.subject))).map
              (fun s => CsvRow.sub (displayName g s) (votesOfSub g s votes).length
                (catAvgs categories (votesOfSub g s votes)))
            ++ CsvRow.spacer :: rest) := by
  simp [expectedBlock, expectedSubRows]

theorem groupRowSubjects_blocks (categories : List Category) (votes : List Vote)
    (gs : List String) :
    groupRowSubjects (gs.map (expectedBlock categories votes)).flatten = gs := by
  induction gs with
  | nil => rfl
  | cons g rest ih =>
    rw [List.map_cons, List.flatten_cons, expectedBlock_append]
    simp only [groupRowSubjects, groupRowSubjects_map_sub, ih]

theorem takeWhile_isSub_map {α : Type} (f : α → String) (c : α → Nat)
    (a : α → List String) (l : List α) (rest : List CsvRow) :
    (l.map (fun s => CsvRow.sub (f s) (c s) (a s)) ++ CsvRow.spacer :: rest).takeWhile CsvRow.isSub
      = l.map (fun s => CsvRow.sub (f s) (c s) (a s)) := by
  induction l with
  | nil => simp [List.takeWhile, CsvRow.isSub]
  | cons e es ih => simp [List.takeWhile_cons, CsvRow.isSub, ih]

theorem subRowsOf_map_sub {α : Type} (g : String) (f : α → String) (c : α → Nat)
    (a : α → List String) (l : List α) (rest : List CsvRow) :
    subRowsOf g (l.map (fun s => CsvRow.sub (f s) (c s) (a s)) ++ CsvRow.spacer :: rest)
      = subRowsOf g rest := by
  induction l with
  | nil => rfl
  | cons e es ih => simpa [subRowsOf] using ih

theorem subRowsOf_blocks (categories : List Category) (votes : List Vote)
    (gs : List String) (g : String) (hg : g ∈ gs) :
    subRowsOf g (gs.map (expectedBlock categories votes)).flatten
      = expectedSubRows categories votes g := by
  induction gs with
  | nil => simp at hg
  | cons k rest ih =>
    rw [List.map_cons, List.flatten_cons, expectedBlock_append]
    by_cases hk : k = g
    · subst hk
      simp only [subRowsOf, if_true, takeWhile_isSub_map]
      rfl
    · have hg' : g ∈ rest := by
        rcases List.mem_cons.1 hg with h | h
        · exact absurd h.symm hk
        · exact h
      simp only [subRowsOf, hk, if_false, subRowsOf_map_sub]
      exact ih hg'

theorem mem_keyOrder (ks : List String) (k : String) : k ∈ keyOrder ks ↔ k ∈ ks := by
  unfold keyOrder
  rw [List.mem_append, List.mem_insertionSort, List.mem_filter, List.mem_filter]
  cases h : (arrayIndex k).isSome <;> simp

theorem perm_keyOrder (ks : List String) : (keyOrder ks).Perm ks := by
  unfold keyOrder
  exact ((List.perm_insertionSort _ _).append_right _).trans
    (List.filter_append_perm (fun k => (arrayIndex k).isSome) ks)

theorem keyOrder_of_no_index (ks : List String) (h : ∀ k ∈ ks, arrayIndex k = none) :
    keyOrder ks = ks := by
  unfold keyOrder
  have h1 : ks.filter (fun k => (arrayIndex k).isSome) = [] := by
    rw [List.filter_eq_nil_iff]
    intro k hk; simp [h k hk]
  have h2 : ks.filter (fun k => !(arrayIndex k).isSome) = ks := by
    rw [List.filter_eq_self]
    intro k hk; simp [h k hk]
  rw [h1, h2]; rfl

theorem sessionAB_reachable : Reachable sessionAB :=
  Reachable.createSession "k3x9q" { name := "Demo", categories := categoriesAB } (Reachable.init [])

theorem openSubject_reachable (g : GameState) (subject mode : String) (h : Reachable g) :
    Reachable (openSubject g subject mode) :=
  Reachable.updateStatus _ h


/-! ## Averages -/

theorem getProp_append_singleton {α : Type} (o : List (String × α)) (k j : String) (x : α) :
    getProp (o ++ [(k, x)]) j
      = match getProp o j with
        | some y => some y
        | none => if k = j then some x else none := by
  induction o with
  | nil => by_cases h : k = j <;> simp [getProp, h]
  | cons e es ih =>
    by_cases h : e.1 = j
    · simp [getProp, h]
    · simp only [getProp, List.cons_append, List.find?_cons, h, decide_False] at ih ⊢
      exact ih

theorem getProp_eq_none {α : Type} (o : List (String × α)) (k : String)
    (h : o.any (fun e => decide (e.1 = k)) = false) : getProp o k = none := by
  induction o with
  | nil => rfl
  | cons e es ih =>
    simp only [List.any_cons, Bool.or_eq_false_iff, decide_eq_false_iff_not] at h
    simp only [getProp, List.find?_cons, h.1, decide_False] at ih ⊢
    exact ih h.2

theorem getProp_map_set {α : Type} (o : List (String × α)) (k j : String) (x : α) :
    getProp (o.map fun e => if e.1 = k then (k, x) else e) j
      = if j = k then (getProp o k).map (fun _ => x) else getProp o j := by
  induction o with
  | nil => simp [getProp]
  | cons e es ih =>
    by_cases hj : j = k
    · subst hj
      simp only [if_true] at ih ⊢
      by_cases he : e.1 = j
      · simp [getProp, he]
      · simp only [getProp, List.map_cons, he, if_false, List.find?_cons, decide_False] at ih ⊢
        exact ih
    · simp only [hj, if_false] at ih ⊢
      by_cases he : e.1 = k
      · have hkj : ¬ k = j := fun e => hj e.symm
        have hej : ¬ e.1 = j := fun e' => hj (e'.symm.trans he)
        simp only [getProp, List.map_cons, he, if_true, List.find?_cons, hkj, decide_False,
          hej] at ih ⊢
        exact ih
      · by_cases hej : e.1 = j
        · simp only [getProp, List.map_cons, he, if_false, List.find?_cons, hej, hj,
            decide_True]
        · simp only [getProp, List.map_cons, he, if_false, List.find?_cons, hej,
            decide_False] at ih ⊢
          exact ih

theorem getProp_isSome_of_any {α : Type} (o : List (String × α)) (k : String)
    (h : o.any (fun e => decide (e.1 = k)) = true) : (getProp o k).isSome = true := by
  induction o with
  | nil => simp at h
  | cons e es ih =>
    by_cases he : e.1 = k
    · simp [getProp, he]
    · simp only [List.any_cons, he, decide_False, Bool.false_or] at h
      simp only [getProp, List.find?_cons, he, decide_False] at ih ⊢
      exact ih h

theorem getProp_setProp {α : Type} (o : List (String × α)) (k j : String) (x : α) :
    getProp (setProp o k x) j = if j = k then some x else getProp o j := by
  unfold setProp
  cases h : o.any (fun e => decide (e.1 = k)) with
  | true =>
    simp only [if_true]
    rw [getProp_map_set]
    by_cases hj : j = k
    · have := getProp_isSome_of_any o k h
      cases hg : getProp o k with
      | none => rw [hg] at this; simp at this
      | some y => simp [hj]
    · simp [hj]
  | false =>
    simp only [Bool.false_eq_true, if_false]
    rw [getProp_append_singleton]
    by_cases hj : j = k
    · subst hj; simp [getProp_eq_none o j h]
    · have hkj : ¬ k = j := fun e => hj e.symm
      cases hg : getProp o j <;> simp [hj, hkj]

theorem mkFin_zero (neg : Bool) (m : Nat) (q : Int) (d : Nat)
    (h : mkFin neg m q = JsNum.fin 0 d) : d = 1 := by
  unfold mkFin at h
  by_cases hq : 0 ≤ q
  · simp only [hq, if_true, JsNum.fin.injEq] at h
    exact h.2.symm
  · simp only [hq, if_false, JsNum.fin.injEq] at h
    obtain ⟨h1, h2⟩ := h
    have hden : 0 < 2 ^ q.natAbs := Nat.two_pow_pos _
    have hg : 0 < Nat.gcd m (2 ^ q.natAbs) := Nat.gcd_pos_of_pos_right _ hden
    have hs : (if neg = true then (-1 : Int) else 1) ≠ 0 := by
      cases neg <;> simp
    have hm : m / Nat.gcd m (2 ^ q.natAbs) = 0 := by
      rcases Int.mul_eq_zero.1 h1 with h0 | h0
      · exact absurd h0 hs
      · exact_mod_cast h0
    have hlt : m < Nat.gcd m (2 ^ q.natAbs) := (Nat.div_eq_zero_iff hg).1 hm
    have hm0 : m = 0 := Nat.eq_zero_of_dvd_of_lt (Nat.gcd_dvd_left _ _) hlt
    subst hm0
    rw [Nat.gcd_zero_left] at h2
    rw [← h2, Nat.div_self hden]

theorem packRound_clean (neg : Bool) (m : Nat) (q : Int) :
    packRound neg m q ≠ JsNum.nan ∧ ∀ e, packRound neg m q = JsNum.fin 0 e → e = 1 := by
  unfold packRound
  split
  · exact ⟨by simp, fun e he => by simp at he⟩
  · refine ⟨?_, fun e he => mkFin_zero _ _ _ _ he⟩
    unfold mkFin
    simp only
    split <;> simp

/-- A rounded value is not `NaN`, and its zero is written `0 / 1`. -/
theorem roundQ_clean (n : Int) (d : Nat) :
    roundQ n d ≠ JsNum.nan ∧ ∀ e, roundQ n d = JsNum.fin 0 e → e = 1 := by
  unfold roundQ
  split
  · exact ⟨by simp, fun e he => by simp only [JsNum.fin.injEq] at he; exact he.2.symm⟩
  · exact packRound_clean _ _ _

theorem fadd_clean (x y : JsNum) (hx : x ≠ JsNum.nan) (hy : y.isFinite = true) :
    fadd x y ≠ JsNum.nan ∧ ∀ e, fadd x y = JsNum.fin 0 e → e = 1 := by
  cases y with
  | nan => simp [JsNum.isFinite] at hy
  | inf b => simp [JsNum.isFinite] at hy
  | fin n2 d2 =>
    cases x with
    | nan => exact absurd rfl hx
    | inf a => exact ⟨by simp [fadd], fun e he => by simp [fadd] at he⟩
    | fin n1 d1 => simpa [fadd] using roundQ_clean (n1 * d2 + n2 * d1) (d1 * d2)

theorem orZero_clean (x : JsNum) (hx : x ≠ JsNum.nan) (h0 : ∀ e, x = JsNum.fin 0 e → e = 1) :
    orZero (some x) = x := by
  cases x with
  | nan => exact absurd rfl hx
  | inf a => simp [orZero, JsNum.truthy]
  | fin n d =>
    by_cases hn : n = 0
    · subst hn
      have := h0 d rfl
      subst this
      simp [orZero, JsNum.truthy, JsNum.zero]
    · simp [orZero, JsNum.truthy, hn]

theorem foldl_categories_getProp (v : Vote) (cats : List Category)
    (hnd : (cats.map fun c => c.id).Nodup) (totals : List (String × JsNum)) (j : String) :
    getProp (cats.foldl (fun totals cat => addScore totals cat.id (scoreOf cat.id v)) totals) j
      = if j ∈ cats.map (fun c => c.id) then some (fadd (orZero (getProp totals j)) (scoreOf j v))
        else getProp totals j := by
  induction cats generalizing totals with
  | nil => simp
  | cons c cs ih =>
    simp only [List.map_cons, List.nodup_cons] at hnd
    rw [List.foldl_cons, ih hnd.2]
    simp only [addScore, getProp_setProp, List.map_cons, List.mem_cons]
    by_cases hj : j = c.id
    · subst hj
      simp [hnd.1]
    · simp [hj]

theorem catTotals_getProp (cats : List Category) (hnd : (cats.map fun c => c.id).Nodup)
    (votes : List Vote) (totals : List (String × JsNum)) (j : String)
    (hj : j ∈ cats.map fun c => c.id) :
    getProp (votes.foldl
        (fun totals vote =>
          cats.foldl (fun totals cat => addScore totals cat.id (scoreOf cat.id vote)) totals)
        totals) j
      = votes.foldl (fun acc v => some (fadd (orZero acc) (scoreOf j v))) (getProp totals j) := by
  induction votes generalizing totals with
  | nil => rfl
  | cons v vs ih =>
    rw [List.foldl_cons, ih, List.foldl_cons, foldl_categories_getProp v cats hnd, if_pos hj]

theorem foldl_orZero_clean (j : String) (votes : List Vote) (t : JsNum)
    (hf : ∀ v ∈ votes, (scoreOf j v).isFinite = true)
    (ht : t ≠ JsNum.nan) (h0 : ∀ e, t = JsNum.fin 0 e → e = 1) :
    votes.foldl (fun acc v => some (fadd (orZero acc) (scoreOf j v))) (some t)
      = some ((votes.map (scoreOf j)).foldl fadd t) := by
  induction votes generalizing t with
  | nil => rfl
  | cons v vs ih =>
    have hv : (scoreOf j v).isFinite = true := hf v (by simp)
    have hc := fadd_clean t (scoreOf j v) ht hv
    rw [List.foldl_cons, orZero_clean t ht h0, ih _ (fun w hw => hf w (by simp [hw])) hc.1 hc.2]
    rfl

/-- The total the two loops leave for a category id is the plain sum of the
scores, when every score reads as a finite number. -/
theorem catTotals_eq_sum (cats : List Category) (hnd : (cats.map fun c => c.id).Nodup)
    (v : Vote) (vs : List Vote) (j : String) (hj : j ∈ cats.map fun c => c.id)
    (hf : ∀ w ∈ v :: vs, (scoreOf j w).isFinite = true) :
    getProp (catTotals cats (v :: vs)) j = some (sumScores j (v :: vs)) := by
  unfold catTotals
  rw [catTotals_getProp cats hnd (v :: vs) [] j hj]
  have hv : (scoreOf j v).isFinite = true := hf v (by simp)
  have hc := fadd_clean JsNum.zero (scoreOf j v) (by simp [JsNum.zero]) hv
  rw [List.foldl_cons]
  have h1 : orZero (getProp ([] : List (String × JsNum)) j) = JsNum.zero := rfl
  rw [h1, foldl_orZero_clean j vs _ (fun w hw => hf w (by simp [hw])) hc.1 hc.2]
  rfl

/-- The cells of a row are the averages of the categories over the votes of
the row. -/
theorem catAvgs_eq_average (cats : List Category) (votes : List Vote)
    (hnd : (cats.map fun c => c.id).Nodup) (hp : ∀ c ∈ cats, c.id ∉ objectPrototypeKeys)
    (hne : votes ≠ [])
    (hf : ∀ v ∈ votes, ∀ c ∈ cats, (scoreOf c.id v).isFinite = true) :
    catAvgs cats votes = cats.map fun c => average c.id votes := by
  unfold catAvgs
  apply List.map_congr_left
  intro c hc
  rw [if_neg (hp c hc)]
  cases votes with
  | nil => exact absurd rfl hne
  | cons v vs =>
    rw [catTotals_eq_sum cats hnd v vs c.id (List.mem_map.2 ⟨c, hc, rfl⟩)
      (fun w hw => hf w hw c hc)]
    rfl

theorem groupRowsOf_map_sub {α : Type} (g : String) (f : α → String) (c : α → Nat)
    (a : α → List String) (l : List α) (rest : List CsvRow) :
    groupRowsOf g (l.map (fun s => CsvRow.sub (f s) (c s) (a s)) ++ CsvRow.spacer :: rest)
      = groupRowsOf g rest := by
  simp [groupRowsOf, List.filter_append, List.filter_map, List.filter_cons]

theorem groupRowsOf_blocks_other (categories : List Category) (votes : List Vote)
    (gs : List String) (g : String) (hg : g ∉ gs) :
    groupRowsOf g (gs.map (expectedBlock categories votes)).flatten = [] := by
  induction gs with
  | nil => rfl
  | cons k rest ih =>
    have hk : ¬ k = g := fun e => hg (e ▸ List.mem_cons_self _ _)
    have hr : g ∉ rest := fun e => hg (List.mem_cons_of_mem _ e)
    rw [List.map_cons, List.flatten_cons, expectedBlock_append]
    have := groupRowsOf_map_sub g (fun s => displayName k s)
      (fun s => (votesOfSub k s votes).length) (fun s => catAvgs categories (votesOfSub k s votes))
      (keyOrder (firstSeen ((votesOfMain k votes).map fun v => v.subject)))
      ((rest.map (expectedBlock categories votes)).flatten)
    rw [ih hr] at this
    simpa [groupRowsOf, hk] using this

theorem groupRowsOf_blocks (categories : List Category) (votes : List Vote)
    (gs : List String) (g : String) (hg : g ∈ gs) (hnd : gs.Nodup) :
    groupRowsOf g (gs.map (expectedBlock categories votes)).flatten
      = [CsvRow.group g (votesOfMain g votes).length (catAvgs categories (votesOfMain g votes))] := by
  induction gs with
  | nil => simp at hg
  | cons k rest ih =>
    rw [List.nodup_cons] at hnd
    rw [List.map_cons, List.flatten_cons, expectedBlock_append]
    have hsub := groupRowsOf_map_sub g (fun s => displayName k s)
      (fun s => (votesOfSub k s votes).length) (fun s => catAvgs categories (votesOfSub k s votes))
      (keyOrder (firstSeen ((votesOfMain k votes).map fun v => v.subject)))
      ((rest.map (expectedBlock categories votes)).flatten)
    by_cases hk : k = g
    · subst hk
      rw [groupRowsOf_blocks_other categories votes rest k hnd.1] at hsub
      simpa [groupRowsOf] using hsub
    · have hg' : g ∈ rest := by
        rcases List.mem_cons.1 hg with h | h
        · exact absurd h.symm hk
        · exact h
      rw [ih hg' hnd.2] at hsub
      simpa [groupRowsOf, hk] using hsub


/-! ## The export claims -/

/-- Group Score rows, away from the inherited names: for a category list with
distinct ids none of which is an inherited name, and a votes log without
inherited grouping keys whose scores all read as finite numbers, the export
has for each main subject `g` of the log exactly one Group Score row; its
count is the number of votes with main subject `g`, and its cell for each
category is the sum of the scores of those votes (a missing score counted as
`0`) divided by the count, to two decimals. -/
theorem group_score_rows (categories : List Category) (votes : List Vote) (g : String)
    (h : NoInheritedKey votes) (hnd : (categories.map fun c => c.id).Nodup)
    (hp : ∀ c ∈ categories, c.id ∉ objectPrototypeKeys)
    (hf : ∀ v ∈ votes, ∀ c ∈ categories, (scoreOf c.id v).isFinite = true)
    (hg : g ∈ votes.map fun v => v.mainSubject) :
    ∃ rows, exportRows categories votes = some rows
      ∧ groupRowsOf g rows
          = [CsvRow.group g (votesOfMain g votes).length
              (categories.map fun c =>
                toFixed2 (fdivCount (sumScores c.id (votesOfMain g votes))
                  (votesOfMain g votes).length))] := by
  refine ⟨_, exportRows_eq categories votes h, ?_⟩
  have hg' : g ∈ keyOrder (firstSeen (votes.map fun v => v.mainSubject)) :=
    (mem_keyOrder _ _).2 ((mem_firstSeen _ _).2 hg)
  have hnd' : (keyOrder (firstSeen (votes.map fun v => v.mainSubject))).Nodup :=
    (perm_keyOrder _).nodup_iff.2 (nodup_firstSeen _)
  have hne : votesOfMain g votes ≠ [] := by
    obtain ⟨v, hv, hvg⟩ := List.mem_map.1 hg
    intro he
    have : v ∈ votesOfMain g votes := List.mem_filter.2 ⟨hv, by simp [hvg]⟩
    rw [he] at this
    simp at this
  have havg := catAvgs_eq_average categories (votesOfMain g votes) hnd hp hne
    (fun v hv c hc => hf v (List.mem_filter.1 hv).1 c hc)
  have : groupRowsOf g (headerRow categories ::
      ((keyOrder (firstSeen (votes.map fun v => v.mainSubject))).map
        (expectedBlock categories votes)).flatten)
      = groupRowsOf g ((keyOrder (firstSeen (votes.map fun v => v.mainSubject))).map
        (expectedBlock categories votes)).flatten := rfl
  rw [this, groupRowsOf_blocks categories votes _ g hg' hnd', havg]
  rfl

theorem group_score_rows_example :
    ∃ rows, exportRows categoriesAB team1State.votes = some rows
      ∧ groupRowsOf "Team1" rows = [CsvRow.group "Team1" 3 ["3.67", "6.33"]] := by
  obtain ⟨rows, h1, h2⟩ := group_score_rows categoriesAB team1State.votes "Team1"
    (by decide) (by decide) (by decide) (by decide) (by decide)
  exact ⟨rows, h1, h2.trans (by decide)⟩

/-- C8 (code bug, evaluated): after a vote for a subject named `constructor`
the reachable log holds one vote with that main subject, and the export
handler throws instead of emitting its Group Score row: `acc["constructor"]`
is the inherited constructor function, so no array is created and `push` is
not a function.  On the aggregation example the same handler gives the row
`Team1`, count 3, averages 3.67 and 6.33. -/
theorem group_score_row_inherited_name :
    Reachable constructorState
    ∧ constructorState.categories = categoriesAB
    ∧ constructorState.votes.map (fun v => v.mainSubject) = ["constructor"]
    ∧ exportRows constructorState.categories constructorState.votes = none
    ∧ exportCsv constructorState = none
    ∧ (exportRows team1State.categories team1State.votes).map (groupRowsOf "Team1")
        = some [CsvRow.group "Team1" 3 ["3.67", "6.33"]] := by
  refine ⟨?_, by decide, by decide, by decide, by decide, by decide⟩
  exact Reachable.submit _ _ _ _ (openSubject_reachable _ _ _ sessionAB_reachable)

/-- C9 (as stated, refuted): after votes for the subject `10` and then for the
subject `2`, the Group Score rows come in the order `2`, `10`, while the
order of first occurrence in the log is `10`, `2`. -/
theorem main_subject_order_counterexample :
    Reachable numberedState
    ∧ firstSeen (numberedState.votes.map fun v => v.mainSubject) = ["10", "2"]
    ∧ (exportRows numberedState.categories numberedState.votes).map groupRowSubjects
        = some ["2", "10"] := by
  refine ⟨?_, by decide, by decide⟩
  exact Reachable.submit _ _ _ _ (openSubject_reachable _ _ _
    (Reachable.submit _ _ _ _ (openSubject_reachable _ _ _ sessionAB_reachable)))

/-- C9 (amended): for every votes log in which no main subject or subject is a
name inherited from `Object.prototype`, the export succeeds and the main
subjects of its Group Score rows are the distinct `mainSubject` values of the
log in property order: those that are array indices in ascending numeric
order, then the others in order of first occurrence.  When no `mainSubject`
is an array index this is the order of first occurrence. -/
theorem main_subject_order (categories : List Category) (votes : List Vote)
    (h : NoInheritedKey votes) :
    ∃ rows, exportRows categories votes = some rows
      ∧ groupRowSubjects rows
          = ((firstSeen (votes.map fun v => v.mainSubject)).filter
                (fun k => (arrayIndex k).isSome)).insertionSort
              (fun a b => (arrayIndex a).getD 0 ≤ (arrayIndex b).getD 0)
            ++ (firstSeen (votes.map fun v => v.mainSubject)).filter
                (fun k => !(arrayIndex k).isSome)
      ∧ ((∀ v ∈ votes, arrayIndex v.mainSubject = none) →
          groupRowSubjects rows = firstSeen (votes.map fun v => v.mainSubject)) := by
  refine ⟨_, exportRows_eq categories votes h, ?_, ?_⟩
  · simp only [groupRowSubjects, groupRowSubjects_blocks]
    rfl
  · intro hn
    simp only [groupRowSubjects, groupRowSubjects_blocks]
    apply keyOrder_of_no_index
    intro k hk
    obtain ⟨v, hv, rfl⟩ := List.mem_map.1 ((mem_firstSeen _ _).1 hk)
    exact hn v hv

theorem main_subject_order_witness :
    NoInheritedKey numberedState.votes
    ∧ ∃ rows, exportRows categoriesAB numberedState.votes = some rows
        ∧ groupRowSubjects rows = ["2", "10"] := by
  obtain ⟨rows, h1, h2, _⟩ := main_subject_order categoriesAB numberedState.votes (by decide)
  exact ⟨by decide, rows, h1, h2.trans (by decide)⟩

/-- C10 (as stated, refuted): in the group `7` the participant subject
`7 - X` occurs first and the group subject `7` second, yet the export lists
the sub-row of `7` (Group Evaluation) before the sub-row of `X`. -/
theorem sub_rows_counterexample :
    Reachable mixedNumberState
    ∧ firstSeen ((votesOfMain "7" mixedNumberState.votes).map fun v => v.subject)
        = ["7 - X", "7"]
    ∧ (exportRows mixedNumberState.categories mixedNumberState.votes).map (subRowsOf "7")
        = some [CsvRow.sub "Group Evaluation" 1 ["1.00", "1.00"],
                CsvRow.sub "X" 1 ["4.00", "6.00"]] := by
  refine ⟨?_, by decide, by decide⟩
  exact Reachable.submit _ _ _ _ (openSubject_reachable _ _ _
    (Reachable.submit _ _ _ _ (openSubject_reachable _ _ _ sessionAB_reachable)))

/-- C10 (amended): for every category list and every votes log in which no
main subject or subject is a name inherited from `Object.prototype`, the
export succeeds, and within the group of each main subject `g` it emits
exactly one sub-row per distinct subject of the group, in property order
(subjects that are array indices in ascending numeric order, then the others
in order of first occurrence within the group); the sub-row of the subject
`s` carries the number of votes of the group with subject `s` and the
averages computed over exactly those votes.  When no subject of the group is
an array index the order is that of first occurrence. -/
theorem sub_rows (categories : List Category) (votes : List Vote) (g : String)
    (h : NoInheritedKey votes) (hg : g ∈ votes.map fun v => v.mainSubject) :
    ∃ rows, exportRows categories votes = some rows
      ∧ subRowsOf g rows
          = (keyOrder (firstSeen ((votesOfMain g votes).map fun v => v.subject))).map
              (fun s => CsvRow.sub (displayName g s) (votesOfSub g s votes).length
                (catAvgs categories (votesOfSub g s votes)))
      ∧ (keyOrder (firstSeen ((votesOfMain g votes).map fun v => v.subject))).Nodup
      ∧ (∀ s, s ∈ keyOrder (firstSeen ((votesOfMain g votes).map fun v => v.subject))
            ↔ ∃ v ∈ votes, v.mainSubject = g ∧ v.subject = s)
      ∧ ((∀ v ∈ votes, v.mainSubject = g → arrayIndex v.subject = none) →
          keyOrder (firstSeen ((votesOfMain g votes).map fun v => v.subject))
            = firstSeen ((votesOfMain g votes).map fun v => v.subject))
      ∧ ((categories.map fun c => c.id).Nodup →
          (∀ c ∈ categories, c.id ∉ objectPrototypeKeys) →
          (∀ v ∈ votes, ∀ c ∈ categories, (scoreOf c.id v).isFinite = true) →
          ∀ s ∈ keyOrder (firstSeen ((votesOfMain g votes).map fun v => v.subject)),
            catAvgs categories (votesOfSub g s votes)
              = categories.map fun c =>
                  toFixed2 (fdivCount (sumScores c.id (votesOfSub g s votes))
                    (votesOfSub g s votes).length)) := by
  refine ⟨_, exportRows_eq categories votes h, ?_, ?_, ?_, ?_, ?_⟩
  · have hg' : g ∈ keyOrder (firstSeen (votes.map fun v => v.mainSubject)) :=
      (mem_keyOrder _ _).2 ((mem_firstSeen _ _).2 hg)
    simp only [subRowsOf]
    exact subRowsOf_blocks categories votes _ g hg'
  · exact (perm_keyOrder _).nodup_iff.2 (nodup_firstSeen _)
  · intro s
    rw [mem_keyOrder, mem_firstSeen]
    simp [votesOfMain, and_assoc]
  · intro hn
    apply keyOrder_of_no_index
    intro k hk
    obtain ⟨v, hv, rfl⟩ := List.mem_map.1 ((mem_firstSeen _ _).1 hk)
    have := List.mem_filter.1 hv
    exact hn v this.1 (of_decide_eq_true this.2)
  · intro hnd hp hf s hs
    have hs' := List.mem_map.1 ((mem_firstSeen _ _).1 ((mem_keyOrder _ _).1 hs))
    obtain ⟨v, hv, hvs⟩ := hs'
    have hne : votesOfSub g s votes ≠ [] := by
      intro he
      have : v ∈ votesOfSub g s votes := List.mem_filter.2 ⟨hv, by simp [hvs]⟩
      rw [he] at this
      simp at this
    exact catAvgs_eq_average categories (votesOfSub g s votes) hnd hp hne
      (fun w hw c hc => hf w (List.mem_filter.1 (List.mem_filter.1 hw).1).1 c hc)

theorem sub_rows_witness :
    NoInheritedKey mixedNumberState.votes
    ∧ ∃ rows, exportRows categoriesAB mixedNumberState.votes = some rows
        ∧ subRowsOf "7" rows
          = [CsvRow.sub "Group Evaluation" 1 ["1.00", "1.00"], CsvRow.sub "X" 1 ["4.00", "6.00"]] := by
  obtain ⟨rows, h1, h2, _⟩ := sub_rows categoriesAB mixedNumberState.votes "7"
    (by decide) (by decide)
  exact ⟨by decide, rows, h1, h2.trans (by decide)⟩


/-! ## Host operations -/

/-- C13: `host-create-session` yields a state with `votes` empty, `name` and
`categories` equal to the arguments and a `sessionId` that is not null, and
leaves `currentSubject`, `isVotingOpen`, `currentParticipants` and
`votingMode` (and the display-address fields) as they were. -/
theorem create_session_resets (g : GameState) (token : String) (data : CreateData) :
    (hostCreateSession g token data).1.votes = []
    ∧ (hostCreateSession g token data).1.name = data.name
    ∧ (hostCreateSession g token data).1.categories = data.categories
    ∧ (hostCreateSession g token data).1.sessionId ≠ none
    ∧ (hostCreateSession g token data).1.currentSubject = g.currentSubject
    ∧ (hostCreateSession g token data).1.isVotingOpen = g.isVotingOpen
    ∧ (hostCreateSession g token data).1.currentParticipants = g.currentParticipants
    ∧ (hostCreateSession g token data).1.votingMode = g.votingMode
    ∧ (hostCreateSession g token data).1.availableIps = g.availableIps
    ∧ (hostCreateSession g token data).1.selectedIpIndex = g.selectedIpIndex := by
  simp [hostCreateSession]

/-- C14: `host-update-status` is a merge: each of `currentSubject`,
`isVotingOpen`, `currentParticipants` and `votingMode` takes the value of the
update when the field is present and keeps its value when it is absent, and
`sessionId`, `name`, `categories`, `votes` and the display-address fields are
unchanged. -/
theorem update_status_merges (g : GameState) (data : StatusData) :
    (hostUpdateStatus g data).1
      = { g with
          currentSubject := data.currentSubject.getD g.currentSubject
          isVotingOpen := data.isVotingOpen.getD g.isVotingOpen
          currentParticipants := data.currentParticipants.getD g.currentParticipants
          votingMode := data.votingMode.getD g.votingMode } := by
  unfold hostUpdateStatus
  cases data.currentSubject <;> cases data.isVotingOpen <;>
    cases data.currentParticipants <;> cases data.votingMode <;> rfl

/-- C15: `host-select-ip` leaves the state unchanged when the index is
negative or not below the length of the address list; otherwise the selected
index becomes the index and every other field is unchanged. -/
theorem select_ip_bounds (g : GameState) (index : Int) :
    ((index < 0 ∨ (g.availableIps.length : Int) ≤ index) → (hostSelectIp g index).1 = g)
    ∧ ((0 ≤ index ∧ index < (g.availableIps.length : Int)) →
        (hostSelectIp g index).1 = { g with selectedIpIndex := index }) := by
  constructor
  · intro h
    have : ¬ (0 ≤ index ∧ index < (g.availableIps.length : Int)) := by omega
    simp [hostSelectIp, this]
  · intro h
    simp [hostSelectIp, h]

theorem select_ip_bounds_witness :
    (hostSelectIp (initialState [⟨"eth0", "10.0.0.2", "http://10.0.0.2:3000"⟩,
        ⟨"wlan0", "192.168.1.4", "http://192.168.1.4:3000"⟩]) 2).1
      = initialState [⟨"eth0", "10.0.0.2", "http://10.0.0.2:3000"⟩,
          ⟨"wlan0", "192.168.1.4", "http://192.168.1.4:3000"⟩]
    ∧ (hostSelectIp (initialState [⟨"eth0", "10.0.0.2", "http://10.0.0.2:3000"⟩,
        ⟨"wlan0", "192.168.1.4", "http://192.168.1.4:3000"⟩]) 1).1.selectedIpIndex = 1 :=
  ⟨(select_ip_bounds (initialState [⟨"eth0", "10.0.0.2", "http://10.0.0.2:3000"⟩,
      ⟨"wlan0", "192.168.1.4", "http://192.168.1.4:3000"⟩]) 2).1 (Or.inr (by decide)),
   by decide⟩

/-! ## Display names -/

theorem replaceFirst_of_startsWith (pat : List Char) (rest : List Char) (hp : pat ≠ []) :
    replaceFirst pat [] (pat ++ rest) = rest := by
  cases pat with
  | nil => exact absurd rfl hp
  | cons c cs =>
    have h : (c :: cs).isPrefixOf (c :: (cs ++ rest)) = true :=
      List.isPrefixOf_iff_prefix.2 (List.prefix_append (c :: cs) rest)
    simp only [List.cons_append, replaceFirst, h, if_true, List.nil_append]
    simp

/-- The display name of the subject made for a participant is the name. -/
theorem displayName_participant (g name : String) :
    displayName g (g ++ " - " ++ name) = name := by
  have hpre : (g ++ " - ").data.isPrefixOf (g ++ " - " ++ name).data = true := by
    rw [String.data_append, List.isPrefixOf_iff_prefix]
    exact List.prefix_append _ _
  unfold displayName
  rw [if_pos hpre, String.data_append (g ++ " - ") name, replaceFirst_of_startsWith]
  rw [String.data_append]
  simp

/-- Starting with `g ++ " - "` is being `g ++ " - " ++ rest` for some `rest`. -/
theorem startsWith_iff (g s : String) :
    (g ++ " - ").data.isPrefixOf s.data = true ↔ ∃ rest : String, s = g ++ " - " ++ rest := by
  rw [List.isPrefixOf_iff_prefix]
  constructor
  · rintro ⟨t, ht⟩
    refine ⟨String.mk t, ?_⟩
    apply String.ext
    rw [String.data_append, ← ht]
  · rintro ⟨rest, rfl⟩
    rw [String.data_append]
    exact List.prefix_append _ _

/-- C11: the display name of the sub-row of the subject `s` in the group `g`
is `s` without its leading `g ++ " - "` when `s` starts with `g ++ " - "`;
otherwise it is `Group Evaluation` when `s = g` or `s = g ++ " (Group)"`;
otherwise it is `s`. -/
theorem display_name_derivation (g s : String) :
    (∀ rest : String, s = g ++ " - " ++ rest → displayName g s = rest)
    ∧ ((¬ ∃ rest : String, s = g ++ " - " ++ rest) →
        (s = g ∨ s = g ++ " (Group)") → displayName g s = "Group Evaluation")
    ∧ ((¬ ∃ rest : String, s = g ++ " - " ++ rest) →
        ¬ (s = g ∨ s = g ++ " (Group)") → displayName g s = s) := by
  refine ⟨?_, ?_, ?_⟩
  · intro rest h
    rw [h]
    exact displayName_participant g rest
  · intro h1 h2
    unfold displayName
    rw [if_neg (fun h => h1 ((startsWith_iff g s).1 h)), if_pos h2]
  · intro h1 h2
    unfold displayName
    rw [if_neg (fun h => h1 ((startsWith_iff g s).1 h)), if_neg h2]

theorem display_name_derivation_witness :
    displayName "Team1" "Team1 - X" = "X"
    ∧ displayName "Team1" "Team1 (Group)" = "Group Evaluation"
    ∧ displayName "Team1" "Team1" = "Group Evaluation"
    ∧ displayName "Team1" "Team2 - X" = "Team2 - X" :=
  ⟨(display_name_derivation "Team1" "Team1 - X").1 "X" rfl, by decide, by decide, by decide⟩

/-! ## Device identity -/

/-- C17: for the addresses `127.0.0.1`, `::1` and `localhost`, with or without
the `::ffff:` prefix the connection handler cuts off, the identifier is
`LOCALHOST` and no command is run: neither the ping nor the ARP query. -/
theorem localhost_shortcut (platform : String) (exec : String → ExecResult) (address : String)
    (h : address ∈ ["127.0.0.1", "::1", "localhost",
                    "::ffff:127.0.0.1", "::ffff:::1", "::ffff:localhost"]) :
    (resolveClient platform exec address).clientId = "LOCALHOST"
    ∧ (resolveClient platform exec address).commands = []
    ∧ (getMacAddress platform exec (resolveClient platform exec address).clientIp)
        = (some "LOCALHOST", []) := by
  simp only [List.mem_cons, List.mem_singleton, List.not_mem_nil, or_false] at h
  rcases h with h | h | h | h | h | h <;> subst h <;> refine ⟨?_, ?_, ?_⟩ <;> rfl

theorem localhost_shortcut_witness :
    (resolveClient "linux" (fun _ => { error := true, stdout := "" }) "::ffff:127.0.0.1").clientId
      = "LOCALHOST"
    ∧ (resolveClient "linux" (fun _ => { error := true, stdout := "" })
        "::ffff:127.0.0.1").commands = [] :=
  have h := localhost_shortcut "linux" (fun _ => { error := true, stdout := "" })
    "::ffff:127.0.0.1" (by decide)
  ⟨h.1, h.2.1⟩

/-! ## Connection registry -/

theorem keys_setProp {α : Type} (o : List (String × α)) (k : String) (x : α) :
    (setProp o k x).map Prod.fst
      = if k ∈ o.map Prod.fst then o.map Prod.fst else o.map Prod.fst ++ [k] := by
  unfold setProp
  have hany : o.any (fun e => decide (e.1 = k)) = decide (k ∈ o.map Prod.fst) := by
    induction o with
    | nil => simp
    | cons e es ih =>
      simp only [List.any_cons, ih, List.map_cons, List.mem_cons]
      by_cases h : e.1 = k
      · simp [h]
      · have h' : ¬ k = e.1 := fun e' => h e'.symm
        simp [h, h']
  rw [hany]
  by_cases h : k ∈ o.map Prod.fst
  · simp only [h, decide_True, if_true, List.map_map]
    apply List.map_congr_left
    intro e _
    by_cases he : e.1 = k
    · simp [he]
    · simp [he]
  · simp [h]

theorem nodup_keys_setProp {α : Type} (o : List (String × α)) (k : String) (x : α)
    (h : (o.map Prod.fst).Nodup) : ((setProp o k x).map Prod.fst).Nodup := by
  rw [keys_setProp]
  by_cases hk : k ∈ o.map Prod.fst
  · rw [if_pos hk]; exact h
  · rw [if_neg hk]
    exact List.Nodup.append h (List.nodup_singleton k) (by simpa using hk)

theorem mem_keys_setProp {α : Type} (o : List (String × α)) (k : String) (x : α) :
    k ∈ (setProp o k x).map Prod.fst := by
  rw [keys_setProp]
  by_cases hk : k ∈ o.map Prod.fst
  · rw [if_pos hk]; exact hk
  · rw [if_neg hk]; simp

theorem nodup_keys_mapDelete (m : List (String × String)) (k : String)
    (h : (m.map Prod.fst).Nodup) : ((mapDelete m k).map Prod.fst).Nodup := by
  unfold mapDelete
  exact (List.Nodup.sublist ((List.filter_sublist m).map Prod.fst) h)

theorem getProp_mapDelete (m : List (String × String)) (k : String) :
    getProp (mapDelete m k) k = none := by
  apply getProp_eq_none
  simp [mapDelete]

/-- The state of the registry after the connection handler has run. -/
theorem registerConnection_spec (r : Registry) (clientId socketId : String) (closeNow : Bool)
    (h : (r.activeConnections.map Prod.fst).Nodup) :
    getProp (registerConnection r clientId socketId closeNow).1.activeConnections clientId
        = some socketId
    ∧ ((registerConnection r clientId socketId closeNow).1.activeConnections.map Prod.fst).Nodup
    ∧ (∀ s, s ∈ r.sockets → (s = socketId ∨ getProp r.activeConnections clientId ≠ some s) →
        s ∈ (registerConnection r clientId socketId closeNow).1.sockets) := by
  unfold registerConnection
  cases hg : getProp r.activeConnections clientId with
  | none =>
    exact ⟨by simp [getProp_setProp], nodup_keys_setProp _ _ _ h, fun s hs _ => hs⟩
  | some old =>
    by_cases hc : old ∈ r.sockets ∧ old ≠ socketId
    · have hkeep : ∀ s, s ∈ r.sockets → (s = socketId ∨ some old ≠ some s) → s ≠ old := by
        intro s _ hor e
        rcases hor with h1 | h1
        · exact hc.2 (e ▸ h1)
        · exact h1 (by rw [e])
      simp only [hc, and_self, if_true, ne_eq, not_false_eq_true]
      cases closeNow with
      | false =>
        refine ⟨by simp [getProp_setProp], nodup_keys_setProp _ _ _ h, ?_⟩
        intro s hs hor
        have := hkeep s hs hor
        simp [hs, this]
      | true =>
        simp only [if_true, onDisconnect, hg]
        refine ⟨by simp [getProp_setProp], ?_, ?_⟩
        · exact nodup_keys_setProp _ _ _ (nodup_keys_mapDelete _ _ h)
        · intro s hs hor
          have := hkeep s hs hor
          simp [hs, this]
    · simp only [hc, if_false]
      exact ⟨by simp [getProp_setProp], nodup_keys_setProp _ _ _ h, fun s hs _ => hs⟩

/-- The notices of the connection handler: one to the registered socket of
the device when that socket is connected and is not the new one, none
otherwise. -/
theorem registerConnection_events (r : Registry) (clientId socketId : String)
    (closeNow : Bool) :
    (registerConnection r clientId socketId closeNow).2
      = match getProp r.activeConnections clientId with
        | some old =>
          if old ∈ r.sockets ∧ old ≠ socketId then [Event.forceDisconnect old forceDisconnectMsg]
          else []
        | none => [] := by
  unfold registerConnection
  cases hg : getProp r.activeConnections clientId with
  | none => rfl
  | some old =>
    by_cases hc : old ∈ r.sockets ∧ old ≠ socketId
    · simp [hc]
    · simp only [hc, if_false]

theorem count_key_eq_one (m : List (String × String)) (k v : String)
    (h : (m.map Prod.fst).Nodup) (hg : getProp m k = some v) :
    m.filter (fun e => decide (e.1 = k)) = [(k, v)] := by
  induction m with
  | nil => simp [getProp] at hg
  | cons e es ih =>
    simp only [List.map_cons, List.nodup_cons] at h
    by_cases he : e.1 = k
    · have hv : e.2 = v := by simpa [getProp, he] using hg
      have hnone : es.filter (fun e => decide (e.1 = k)) = [] := by
        rw [List.filter_eq_nil_iff]
        intro a ha hak
        exact h.1 (List.mem_map.2 ⟨a, ha, (of_decide_eq_true hak).trans he.symm⟩)
      rw [List.filter_cons, if_pos (by simpa using he), hnone]
      cases e with
      | mk e1 e2 =>
        simp only at he hv
        rw [he, hv]
    · have hg' : getProp es k = some v := by
        simpa [getProp, he] using hg
      rw [List.filter_cons, if_neg (by simpa using he)]
      exact ih h.2 hg'

/-- C16: after `register(d, c1)` followed by `register(d, c2)` with
`c1 ≠ c2`, the registry holds exactly one entry for `d`, mapped to `c2`, and
the two steps together send exactly one superseded notice to `c1`; from there
`unregister(d, c1)` changes nothing, so `d` stays mapped to `c2`, whereas
`unregister(d, c2)` removes the entry. -/
theorem registry_keeps_newest (r : Registry) (d c1 c2 : String) (close1 close2 : Bool)
    (hne : c1 ≠ c2) (hmap : (r.activeConnections.map Prod.fst).Nodup) :
    (register (register r d c1 close1).1 d c2 close2).1.activeConnections.filter
        (fun e => decide (e.1 = d)) = [(d, c2)]
    ∧ getProp (register (register r d c1 close1).1 d c2 close2).1.activeConnections d = some c2
    ∧ noticesTo c1 ((register r d c1 close1).2
          ++ (register (register r d c1 close1).1 d c2 close2).2)
        = [Event.forceDisconnect c1 forceDisconnectMsg]
    ∧ onDisconnect (register (register r d c1 close1).1 d c2 close2).1 d c1
        = (register (register r d c1 close1).1 d c2 close2).1
    ∧ getProp (onDisconnect (register (register r d c1 close1).1 d c2 close2).1 d c2).activeConnections
        d = none := by
  have hmap0 : ((socketOpened r c1).activeConnections.map Prod.fst).Nodup := hmap
  have s1 := registerConnection_spec (socketOpened r c1) d c1 close1 hmap0
  have e1 := registerConnection_events (socketOpened r c1) d c1 close1
  -- `c1` is connected after the first step
  have hin : c1 ∈ (socketOpened r c1).sockets := by
    unfold socketOpened
    by_cases h : c1 ∈ r.sockets <;> simp [h]
  have hc1 : c1 ∈ (register r d c1 close1).1.sockets := s1.2.2 c1 hin (Or.inl rfl)
  have hmap1 : ((socketOpened (register r d c1 close1).1 c2).activeConnections.map
      Prod.fst).Nodup := s1.2.1
  have hget1 : getProp (socketOpened (register r d c1 close1).1 c2).activeConnections d
      = some c1 := s1.1
  have hc1' : c1 ∈ (socketOpened (register r d c1 close1).1 c2).sockets := by
    unfold socketOpened
    by_cases h : c2 ∈ (register r d c1 close1).1.sockets <;> simp [h, hc1]
  have s2 := registerConnection_spec (socketOpened (register r d c1 close1).1 c2) d c2 close2 hmap1
  have e2 := registerConnection_events (socketOpened (register r d c1 close1).1 c2) d c2 close2
  rw [hget1] at e2
  simp only [hc1', hne, ne_eq, not_false_eq_true, and_self, if_true] at e2
  have e2' : (register (register r d c1 close1).1 d c2 close2).2
      = [Event.forceDisconnect c1 forceDisconnectMsg] := e2
  have hn1 : noticesTo c1 (register r d c1 close1).2 = [] := by
    unfold register
    rw [e1]
    cases hg : getProp (socketOpened r c1).activeConnections d with
    | none => rfl
    | some old =>
      by_cases hc : old ∈ (socketOpened r c1).sockets ∧ old ≠ c1
      · simp [hc, noticesTo]
      · simp only [hc, if_false]; rfl
  refine ⟨count_key_eq_one _ _ _ s2.2.1 s2.1, s2.1, ?_, ?_, ?_⟩
  · unfold noticesTo at hn1 ⊢
    rw [List.filter_append, hn1, e2']
    simp
  · unfold onDisconnect
    have : getProp (register (register r d c1 close1).1 d c2 close2).1.activeConnections d
        ≠ some c1 := by
      rw [show getProp (register (register r d c1 close1).1 d c2 close2).1.activeConnections d
        = some c2 from s2.1]
      intro h
      exact hne (Option.some.inj h).symm
    rw [if_neg this]
  · unfold onDisconnect
    rw [if_pos (show getProp (register (register r d c1 close1).1 d c2 close2).1.activeConnections d
      = some c2 from s2.1)]
    exact getProp_mapDelete _ _

theorem registry_keeps_newest_witness :
    (register (register ⟨[("AA:BB:CC:DD:EE:FF", "s0")], ["s0"]⟩ "AA:BB:CC:DD:EE:FF" "s1" true).1
        "AA:BB:CC:DD:EE:FF" "s2" false).1.activeConnections
      = [("AA:BB:CC:DD:EE:FF", "s2")]
    ∧ noticesTo "s1" ((register ⟨[("AA:BB:CC:DD:EE:FF", "s0")], ["s0"]⟩
          "AA:BB:CC:DD:EE:FF" "s1" true).2
        ++ (register (register ⟨[("AA:BB:CC:DD:EE:FF", "s0")], ["s0"]⟩
          "AA:BB:CC:DD:EE:FF" "s1" true).1 "AA:BB:CC:DD:EE:FF" "s2" false).2)
      = [Event.forceDisconnect "s1" forceDisconnectMsg] :=
  have h := registry_keeps_newest ⟨[("AA:BB:CC:DD:EE:FF", "s0")], ["s0"]⟩
    "AA:BB:CC:DD:EE:FF" "s1" "s2" true false (by decide) (by decide)
  ⟨by decide, h.2.2.1⟩

/-! ## When the export throws -/

theorem groupBlocks_none (categories : List Category) (entries : List (String × List Vote))
    (e : String × List Vote) (he : e ∈ entries) (hn : groupBlock categories e.1 e.2 = none) :
    groupBlocks categories entries = none := by
  induction entries with
  | nil => simp at he
  | cons a rest ih =>
    rcases List.mem_cons.1 he with h | h
    · subst h
      simp [groupBlocks, hn]
    · cases ha : groupBlock categories a.1 a.2 with
      | none => simp [groupBlocks, ha]
      | some rows => simp [groupBlocks, ha, ih h]

/-- The export throws when a main subject or a subject of the log is an
inherited name. -/
theorem exportRows_none (categories : List Category) (votes : List Vote)
    (h : ¬ NoInheritedKey votes) : exportRows categories votes = none := by
  unfold NoInheritedKey at h
  push_neg at h
  obtain ⟨v, hv, hbad⟩ := h
  by_cases hm : ∀ w ∈ votes, w.mainSubject ∉ objectPrototypeKeys
  · have hs : v.subject ∈ objectPrototypeKeys := hbad (hm v hv)
    unfold exportRows
    rw [groupVotes_eq _ _ hm]
    simp only [objectEntries_map]
    have hmem : (v.mainSubject, votes.filter fun w => decide (w.mainSubject = v.mainSubject))
        ∈ (keyOrder (firstSeen (votes.map fun w => w.mainSubject))).map
            fun k => (k, votes.filter fun w => decide (w.mainSubject = k)) := by
      apply List.mem_map.2
      exact ⟨v.mainSubject,
        (mem_keyOrder _ _).2 ((mem_firstSeen _ _).2 (List.mem_map.2 ⟨v, hv, rfl⟩)), rfl⟩
    have hblock : groupBlock categories v.mainSubject
        (votes.filter fun w => decide (w.mainSubject = v.mainSubject)) = none := by
      unfold groupBlock
      rw [groupVotes_none (fun w => w.subject) _ v (List.mem_filter.2 ⟨hv, by simp⟩) hs]
    rw [groupBlocks_none categories _ _ hmem hblock]
    rfl
  · push_neg at hm
    obtain ⟨w, hw, hwbad⟩ := hm
    unfold exportRows
    rw [groupVotes_none (fun w => w.mainSubject) votes w hw hwbad]

/-- The export emits rows exactly when no grouping key is an inherited name. -/
theorem exportRows_isSome_iff (categories : List Category) (votes : List Vote) :
    (∃ rows, exportRows categories votes = some rows) ↔ NoInheritedKey votes := by
  constructor
  · rintro ⟨rows, hr⟩
    by_contra hn
    rw [exportRows_none categories votes hn] at hr
    exact Option.noConfusion hr
  · intro h
    exact ⟨_, exportRows_eq categories votes h⟩

/-! ## Row counts -/

theorem votesOfMain_ne_nil (votes : List Vote) (g : String)
    (hg : g ∈ votes.map fun v => v.mainSubject) : votesOfMain g votes ≠ [] := by
  obtain ⟨v, hv, hvg⟩ := List.mem_map.1 hg
  intro he
  have : v ∈ votesOfMain g votes := List.mem_filter.2 ⟨hv, by simp [hvg]⟩
  rw [he] at this
  simp at this

theorem votesOfSub_ne_nil (votes : List Vote) (g s : String)
    (hs : s ∈ (votesOfMain g votes).map fun v => v.subject) : votesOfSub g s votes ≠ [] := by
  obtain ⟨v, hv, hvs⟩ := List.mem_map.1 hs
  intro he
  have : v ∈ votesOfSub g s votes := List.mem_filter.2 ⟨hv, by simp [hvs]⟩
  rw [he] at this
  simp at this

/-- Where a row of the export comes from. -/
theorem mem_exportRows (categories : List Category) (votes : List Vote)
    (rows : List CsvRow) (h : exportRows categories votes = some rows) (r : CsvRow)
    (hr : r ∈ rows) :
    r = headerRow categories ∨ r = CsvRow.spacer
    ∨ (∃ g, g ∈ votes.map (fun v => v.mainSubject)
        ∧ r = CsvRow.group g (votesOfMain g votes).length (catAvgs categories (votesOfMain g votes)))
    ∨ (∃ g s, g ∈ votes.map (fun v => v.mainSubject)
        ∧ s ∈ (votesOfMain g votes).map (fun v => v.subject)
        ∧ r = CsvRow.sub (displayName g s) (votesOfSub g s votes).length
            (catAvgs categories (votesOfSub g s votes))) := by
  have hk : NoInheritedKey votes := (exportRows_isSome_iff categories votes).1 ⟨rows, h⟩
  rw [exportRows_eq categories votes hk] at h
  have hrows := Option.some.inj h
  rw [← hrows] at hr
  rcases List.mem_cons.1 hr with h1 | h1
  · exact Or.inl h1
  · obtain ⟨blk, hblk, hrb⟩ := List.mem_flatten.1 h1
    obtain ⟨g, hg, rfl⟩ := List.mem_map.1 hblk
    have hg' : g ∈ votes.map fun v => v.mainSubject :=
      (mem_firstSeen _ _).1 ((mem_keyOrder _ _).1 hg)
    unfold expectedBlock at hrb
    rcases List.mem_cons.1 hrb with h2 | h2
    · exact Or.inr (Or.inr (Or.inl ⟨g, hg', h2⟩))
    · rcases List.mem_append.1 h2 with h3 | h3
      · unfold expectedSubRows at h3
        obtain ⟨s, hs, rfl⟩ := List.mem_map.1 h3
        exact Or.inr (Or.inr (Or.inr ⟨g, s, hg',
          (mem_firstSeen _ _).1 ((mem_keyOrder _ _).1 hs), rfl⟩))
      · exact Or.inr (Or.inl (by simpa using h3))

/-- C18: every Group Score row and every sub-row the export emits has a count
of at least 1, for every category list and every votes log: the divisor of
each average is not zero.  (The export emits its rows whenever no grouping key
is an inherited name.) -/
theorem no_division_by_zero (categories : List Category) (votes : List Vote) :
    (∀ rows, exportRows categories votes = some rows →
      ∀ r ∈ rows, ∀ n, r.voteCount = some n → 1 ≤ n)
    ∧ (NoInheritedKey votes → ∃ rows, exportRows categories votes = some rows) := by
  refine ⟨?_, fun h => ⟨_, exportRows_eq categories votes h⟩⟩
  intro rows h r hr n hn
  rcases mem_exportRows categories votes rows h r hr with h1 | h1 | ⟨g, hg, h1⟩ | ⟨g, s, hg, hs, h1⟩
  · rw [h1] at hn; simp [headerRow, CsvRow.voteCount] at hn
  · rw [h1] at hn; simp [CsvRow.voteCount] at hn
  · rw [h1] at hn
    simp only [CsvRow.voteCount, Option.some.injEq] at hn
    rw [← hn]
    exact List.length_pos.2 (votesOfMain_ne_nil votes g hg)
  · rw [h1] at hn
    simp only [CsvRow.voteCount, Option.some.injEq] at hn
    rw [← hn]
    exact List.length_pos.2 (votesOfSub_ne_nil votes g s hs)

theorem no_division_by_zero_witness :
    exportRows categoriesAB team1State.votes = some team1Rows
    ∧ ∀ r ∈ team1Rows, ∀ n, r.voteCount = some n → 1 ≤ n :=
  ⟨by decide,
   (no_division_by_zero categoriesAB team1State.votes).1 team1Rows (by decide)⟩

/-! ## Counting votes in rows -/

theorem sum_indicator_eq_count (ks : List String) (a : String) :
    (ks.map fun k => if a = k then 1 else 0).sum = ks.count a := by
  induction ks with
  | nil => rfl
  | cons k rest ih =>
    by_cases h : a = k
    · subst h; simp [ih, Nat.add_comm]
    · have h' : ¬ k = a := fun e => h e.symm
      simp [h, h', ih]

/-- The groups of a partition by key hold every element once. -/
theorem sum_lengths_partition (key : Vote → String) (ks : List String) (hnd : ks.Nodup)
    (l : List Vote) (hk : ∀ v ∈ l, key v ∈ ks) :
    (ks.map fun k => (l.filter fun v => decide (key v = k)).length).sum = l.length := by
  induction l with
  | nil => simp
  | cons v rest ih =>
    have hv : key v ∈ ks := hk v (by simp)
    have hrest := ih (fun w hw => hk w (by simp [hw]))
    have hsplit : (ks.map fun k => ((v :: rest).filter fun w => decide (key w = k)).length)
        = ks.map fun k => (if key v = k then 1 else 0)
            + (rest.filter fun w => decide (key w = k)).length := by
      apply List.map_congr_left
      intro k _
      by_cases h : key v = k
      · simp [h, Nat.add_comm]
      · simp [h]
    rw [hsplit, List.sum_map_add, sum_indicator_eq_count, hrest,
      List.count_eq_one_of_mem hnd hv, List.length_cons, Nat.add_comm]

theorem groupRowCounts_map_sub {α : Type} (f : α → String) (c : α → Nat)
    (a : α → List String) (l : List α) (rest : List CsvRow) :
    groupRowCounts (l.map (fun s => CsvRow.sub (f s) (c s) (a s)) ++ rest)
      = groupRowCounts rest := by
  induction l with
  | nil => rfl
  | cons e es ih => simpa [groupRowCounts] using ih

theorem filterMap_voteCount_sub {α : Type} (f : α → String) (c : α → Nat)
    (a : α → List String) (l : List α) :
    (l.map (fun s => CsvRow.sub (f s) (c s) (a s))).filterMap CsvRow.voteCount = l.map c := by
  induction l with
  | nil => rfl
  | cons e es ih => simp [CsvRow.voteCount, ih]

theorem groupRowCounts_blocks (categories : List Category) (votes : List Vote)
    (gs : List String) :
    groupRowCounts (gs.map (expectedBlock categories votes)).flatten
      = gs.map fun g => (votesOfMain g votes).length := by
  induction gs with
  | nil => rfl
  | cons g rest ih =>
    rw [List.map_cons, List.flatten_cons, expectedBlock_append]
    simp only [groupRowCounts, groupRowCounts_map_sub, ih, List.map_cons]

/-- Counts partition the log, away from the inherited names: when no grouping
key is an inherited name the export succeeds, the counts of its Group Score
rows sum to the length of the log, and for each main subject the counts of
its sub-rows sum to the count of its one Group Score row. -/
theorem rows_partition_votes (categories : List Category) (votes : List Vote)
    (h : NoInheritedKey votes) :
    ∃ rows, exportRows categories votes = some rows
      ∧ (groupRowCounts rows).sum = votes.length
      ∧ ∀ g ∈ votes.map (fun v => v.mainSubject),
          groupRowsOf g rows
            = [CsvRow.group g (votesOfMain g votes).length
                (catAvgs categories (votesOfMain g votes))]
          ∧ ((subRowsOf g rows).filterMap CsvRow.voteCount).sum
              = (votesOfMain g votes).length := by
  have hnd : (keyOrder (firstSeen (votes.map fun v => v.mainSubject))).Nodup :=
    (perm_keyOrder _).nodup_iff.2 (nodup_firstSeen _)
  refine ⟨_, exportRows_eq categories votes h, ?_, ?_⟩
  · have : groupRowCounts (headerRow categories ::
        ((keyOrder (firstSeen (votes.map fun v => v.mainSubject))).map
          (expectedBlock categories votes)).flatten)
        = groupRowCounts ((keyOrder (firstSeen (votes.map fun v => v.mainSubject))).map
          (expectedBlock categories votes)).flatten := rfl
    rw [this, groupRowCounts_blocks]
    exact sum_lengths_partition (fun v => v.mainSubject) _ hnd votes
      (fun v hv => (mem_keyOrder _ _).2 ((mem_firstSeen _ _).2 (List.mem_map.2 ⟨v, hv, rfl⟩)))
  · intro g hg
    have hg' : g ∈ keyOrder (firstSeen (votes.map fun v => v.mainSubject)) :=
      (mem_keyOrder _ _).2 ((mem_firstSeen _ _).2 hg)
    constructor
    · have : groupRowsOf g (headerRow categories ::
          ((keyOrder (firstSeen (votes.map fun v => v.mainSubject))).map
            (expectedBlock categories votes)).flatten)
          = groupRowsOf g ((keyOrder (firstSeen (votes.map fun v => v.mainSubject))).map
            (expectedBlock categories votes)).flatten := rfl
      rw [this, groupRowsOf_blocks categories votes _ g hg' hnd]
    · have : subRowsOf g (headerRow categories ::
          ((keyOrder (firstSeen (votes.map fun v => v.mainSubject))).map
            (expectedBlock categories votes)).flatten)
          = subRowsOf g ((keyOrder (firstSeen (votes.map fun v => v.mainSubject))).map
            (expectedBlock categories votes)).flatten := rfl
      rw [this, subRowsOf_blocks categories votes _ g hg']
      unfold expectedSubRows
      rw [filterMap_voteCount_sub]
      exact sum_lengths_partition (fun v => v.subject) _
        ((perm_keyOrder _).nodup_iff.2 (nodup_firstSeen _)) (votesOfMain g votes)
        (fun v hv => (mem_keyOrder _ _).2 ((mem_firstSeen _ _).2 (List.mem_map.2 ⟨v, hv, rfl⟩)))

theorem rows_partition_votes_example :
    ∃ rows, exportRows categoriesAB team1State.votes = some rows
      ∧ (groupRowCounts rows).sum = 3
      ∧ ((subRowsOf "Team1" rows).filterMap CsvRow.voteCount).sum = 3 := by
  obtain ⟨rows, h1, h2, h3⟩ := rows_partition_votes categoriesAB team1State.votes (by decide)
  exact ⟨rows, h1, h2.trans (by decide), (h3 "Team1" (by decide)).2.trans (by decide)⟩

/-- C20 (code bug, evaluated): after one vote for a subject named
`constructor` the log holds one vote, and the export handler throws (the
grouping reads the inherited `constructor` of its plain object): it emits no
Group Score row, so the counts of the Group Score rows do not sum to the
length of the log.  On the aggregation example the counts are as claimed:
group row 3, sub-rows 1 + 1 + 1. -/
theorem counts_partition_inherited_name :
    Reachable constructorState
    ∧ constructorState.votes.length = 1
    ∧ exportRows constructorState.categories constructorState.votes = none
    ∧ (exportRows constructorState.categories constructorState.votes).map
        (fun rows => (groupRowCounts rows).sum) ≠ some constructorState.votes.length
    ∧ (exportRows team1State.categories team1State.votes).map
        (fun rows => ((groupRowCounts rows).sum,
          ((subRowsOf "Team1" rows).filterMap CsvRow.voteCount).sum))
        = some (team1State.votes.length, 3) := by
  refine ⟨?_, by decide, by decide, by decide, by decide⟩
  exact Reachable.submit _ _ _ _ (openSubject_reachable _ _ _ sessionAB_reachable)

/-! ## Participant names -/

/-- Participant names come back, away from the inherited names: when no
grouping key of the log is an inherited name, a vote recorded for a
participant item named `name` is counted in a sub-row of its main subject
whose display name is `name`. -/
theorem participant_round_trip (categories : List Category) (votes : List Vote)
    (g : GameState) (socketId clientIp clientId : String) (item : Item) (name : String)
    (h : NoInheritedKey votes) (ht : item.type = "participant") (hname : item.name = some name)
    (hv : mkVote g socketId clientIp clientId item ∈ votes) :
    (mkVote g socketId clientIp clientId item).mainSubject = g.currentSubject
    ∧ (mkVote g socketId clientIp clientId item).subject = g.currentSubject ++ " - " ++ name
    ∧ ∃ rows, exportRows categories votes = some rows
        ∧ CsvRow.sub name
            (votesOfSub g.currentSubject (g.currentSubject ++ " - " ++ name) votes).length
            (catAvgs categories
              (votesOfSub g.currentSubject (g.currentSubject ++ " - " ++ name) votes))
          ∈ subRowsOf g.currentSubject rows
        ∧ mkVote g socketId clientIp clientId item
          ∈ votesOfSub g.currentSubject (g.currentSubject ++ " - " ++ name) votes := by
  have hsub : (mkVote g socketId clientIp clientId item).subject
      = g.currentSubject ++ " - " ++ name := by
    have hg : item.type ≠ "group" := by rw [ht]; decide
    simp [mkVote, displaySubject, ht, hname, templateName]
  have hmain : (mkVote g socketId clientIp clientId item).mainSubject = g.currentSubject := rfl
  have hmem : mkVote g socketId clientIp clientId item
      ∈ votesOfSub g.currentSubject (g.currentSubject ++ " - " ++ name) votes :=
    List.mem_filter.2 ⟨List.mem_filter.2 ⟨hv, by simp [hmain]⟩, by simp [hsub]⟩
  refine ⟨hmain, hsub, _, exportRows_eq categories votes h, ?_, hmem⟩
  have hg' : g.currentSubject ∈ keyOrder (firstSeen (votes.map fun v => v.mainSubject)) :=
    (mem_keyOrder _ _).2 ((mem_firstSeen _ _).2 (List.mem_map.2 ⟨_, hv, hmain⟩))
  have : subRowsOf g.currentSubject (headerRow categories ::
      ((keyOrder (firstSeen (votes.map fun v => v.mainSubject))).map
        (expectedBlock categories votes)).flatten)
      = subRowsOf g.currentSubject ((keyOrder (firstSeen (votes.map fun v => v.mainSubject))).map
        (expectedBlock categories votes)).flatten := rfl
  rw [this, subRowsOf_blocks categories votes _ _ hg']
  unfold expectedSubRows
  apply List.mem_map.2
  refine ⟨g.currentSubject ++ " - " ++ name, ?_, ?_⟩
  · apply (mem_keyOrder _ _).2
    apply (mem_firstSeen _ _).2
    exact List.mem_map.2 ⟨_, List.mem_filter.2 ⟨hv, by simp [hmain]⟩, hsub⟩
  · rw [displayName_participant]

theorem participant_round_trip_example :
    ∃ rows, exportRows categoriesAB team1State.votes = some rows
      ∧ CsvRow.sub "X" 1 ["4.00", "6.00"] ∈ subRowsOf "Team1" rows := by
  obtain ⟨_, _, rows, h1, h2, _⟩ := participant_round_trip categoriesAB team1State.votes
    (openSubject sessionAB "Team1" "mixed") "s1" "10.0.0.5" "AA:BB:CC:DD:EE:FF"
    (participantItem "X" 4 6) "X" (by decide) rfl rfl (by decide)
  exact ⟨rows, h1, by simpa using h2⟩

/-- C19 (code bug, evaluated): intake records the vote for the participant `X`
of a subject named `constructor` with the subject `constructor - X`, whose
display name is `X`, but the export handler throws on this log (the grouping
reads the inherited `constructor` of its plain object), so the vote appears
under no sub-row.  For the subject `Team1` the sub-row `X` is emitted. -/
theorem participant_name_inherited_name :
    Reachable constructorParticipantState
    ∧ constructorParticipantState.votes.map (fun v => (v.mainSubject, v.subject))
        = [("constructor", "constructor - X")]
    ∧ displayName "constructor" "constructor - X" = "X"
    ∧ exportRows constructorParticipantState.categories constructorParticipantState.votes = none
    ∧ exportCsv constructorParticipantState = none
    ∧ (exportRows team1State.categories team1State.votes).map (subRowsOf "Team1")
        = some [CsvRow.sub "X" 1 ["4.00", "6.00"], CsvRow.sub "Y" 1 ["2.00", "8.00"],
                CsvRow.sub "Group Evaluation" 1 ["5.00", "5.00"]] := by
  refine ⟨?_, by decide, by decide, by decide, by decide, by decide⟩
  exact Reachable.submit _ _ _ _ (openSubject_reachable _ _ _ sessionAB_reachable)

/-! ## Missing and malformed scores -/

theorem parseScore_zeroIfFalsy (o : Option JsVal) :
    parseScore (some (zeroIfFalsy o)) = parseScore o := by
  cases o with
  | none => rfl
  | some x =>
    cases x with
    | null => rfl
    | bool b => cases b <;> rfl
    | num y =>
      cases h : y.truthy with
      | true => simp [zeroIfFalsy, h]
      | false =>
        have h1 : zeroIfFalsy (some (JsVal.num y)) = JsVal.num JsNum.zero := by
          simp [zeroIfFalsy, h]
        have h2 : parseScore (some (JsVal.num y)) = JsNum.zero := by
          simp [parseScore, orZero, h]
        rw [h1, h2]
        rfl
    | str s =>
      by_cases h : s = ""
      · subst h; rfl
      · simp [zeroIfFalsy, h]

theorem scoreOf_zeroFilled (categories : List Category) (v : Vote) (c : Category)
    (hc : c ∈ categories) (hp : c.id ∉ objectPrototypeKeys) :
    scoreOf c.id (zeroFilled categories v) = scoreOf c.id v := by
  have hmem : c.id ∈ categories.map fun c => c.id := List.mem_map.2 ⟨c, hc, rfl⟩
  have hget : getProp (zeroFilled categories v).scores c.id
      = some (zeroIfFalsy (getProp v.scores c.id)) := by
    unfold zeroFilled
    simp only
    rw [getProp_map, if_pos hmem]
  unfold scoreOf
  rw [hget]
  simp only
  rw [parseScore_zeroIfFalsy]
  cases hg : getProp v.scores c.id with
  | none => simp [hp, parseScore]
  | some x => rfl

theorem catAvgs_map_congr (categories : List Category) (f : Vote → Vote) (l : List Vote)
    (hsc : ∀ v ∈ l, ∀ c ∈ categories, scoreOf c.id (f v) = scoreOf c.id v) :
    catAvgs categories (l.map f) = catAvgs categories l := by
  have ht : catTotals categories (l.map f) = catTotals categories l := by
    unfold catTotals
    rw [List.foldl_map]
    apply List.foldl_ext
    intro t v hv
    apply List.foldl_ext
    intro t' c hc
    rw [hsc v hv c hc]
  unfold catAvgs
  simp only [ht, List.length_map]

theorem votesOfMain_map (f : Vote → Vote) (hm : ∀ v, (f v).mainSubject = v.mainSubject)
    (g : String) (votes : List Vote) :
    votesOfMain g (votes.map f) = (votesOfMain g votes).map f := by
  unfold votesOfMain
  rw [List.filter_map]
  congr 1
  apply List.filter_congr
  intro v _
  simp [hm v]

theorem votesOfSub_map (f : Vote → Vote) (hm : ∀ v, (f v).mainSubject = v.mainSubject)
    (hs : ∀ v, (f v).subject = v.subject) (g s : String) (votes : List Vote) :
    votesOfSub g s (votes.map f) = (votesOfSub g s votes).map f := by
  unfold votesOfSub
  rw [votesOfMain_map f hm, List.filter_map]
  congr 1
  apply List.filter_congr
  intro v _
  simp [hs v]

theorem noInheritedKey_map (f : Vote → Vote) (hm : ∀ v, (f v).mainSubject = v.mainSubject)
    (hs : ∀ v, (f v).subject = v.subject) (votes : List Vote) :
    NoInheritedKey (votes.map f) ↔ NoInheritedKey votes := by
  unfold NoInheritedKey
  constructor
  · intro h v hv
    have := h (f v) (List.mem_map.2 ⟨v, hv, rfl⟩)
    rwa [hm v, hs v] at this
  · intro h w hw
    obtain ⟨v, hv, rfl⟩ := List.mem_map.1 hw
    rw [hm v, hs v]
    exact h v hv

/-- The export only reads the main subject, the subject and, for the
categories, the number each score reads as. -/
theorem exportRows_map_congr (categories : List Category) (f : Vote → Vote)
    (votes : List Vote) (hm : ∀ v, (f v).mainSubject = v.mainSubject)
    (hs : ∀ v, (f v).subject = v.subject)
    (hsc : ∀ v, ∀ c ∈ categories, scoreOf c.id (f v) = scoreOf c.id v) :
    exportRows categories (votes.map f) = exportRows categories votes := by
  by_cases h : NoInheritedKey votes
  · rw [exportRows_eq categories votes h,
      exportRows_eq categories _ ((noInheritedKey_map f hm hs votes).2 h)]
    have hkeys : (votes.map f).map (fun v => v.mainSubject) = votes.map fun v => v.mainSubject := by
      rw [List.map_map]
      apply List.map_congr_left
      intro v _
      exact hm v
    rw [hkeys]
    congr 3
    apply List.map_congr_left
    intro g _
    unfold expectedBlock expectedSubRows
    have hsub : (votesOfMain g (votes.map f)).map (fun v => v.subject)
        = (votesOfMain g votes).map fun v => v.subject := by
      rw [votesOfMain_map f hm, List.map_map]
      apply List.map_congr_left
      intro v _
      exact hs v
    rw [hsub, votesOfMain_map f hm, List.length_map,
      catAvgs_map_congr categories f _ (fun v _ c hc => hsc v c hc)]
    congr 2
    apply List.map_congr_left
    intro s _
    rw [votesOfSub_map f hm hs, List.length_map,
      catAvgs_map_congr categories f _ (fun v _ c hc => hsc v c hc)]
  · rw [exportRows_none categories votes h,
      exportRows_none categories _ (fun h' => h ((noInheritedKey_map f hm hs votes).1 h'))]

theorem mkFin_den_ne_zero (neg : Bool) (m : Nat) (q : Int) (a : Int) (b : Nat)
    (h : mkFin neg m q = JsNum.fin a b) : b ≠ 0 := by
  unfold mkFin at h
  by_cases hq : 0 ≤ q
  · simp only [hq, if_true, JsNum.fin.injEq] at h
    rw [← h.2]; decide
  · simp only [hq, if_false, JsNum.fin.injEq] at h
    have hden : 0 < 2 ^ q.natAbs := Nat.two_pow_pos _
    have hg : 0 < Nat.gcd m (2 ^ q.natAbs) := Nat.gcd_pos_of_pos_right _ hden
    have hle : Nat.gcd m (2 ^ q.natAbs) ≤ 2 ^ q.natAbs :=
      Nat.le_of_dvd hden (Nat.gcd_dvd_right _ _)
    have := Nat.div_pos hle hg
    rw [← h.2]
    omega

theorem roundQ_den_ne_zero (n : Int) (d : Nat) (a : Int) (b : Nat)
    (h : roundQ n d = JsNum.fin a b) : b ≠ 0 := by
  unfold roundQ at h
  split at h
  · simp only [JsNum.fin.injEq] at h
    rw [← h.2]; decide
  · unfold packRound at h
    split at h
    · exact JsNum.noConfusion h
    · exact mkFin_den_ne_zero _ _ _ _ _ h

/-- A quotient by a count that is not zero is a number unless the dividend is
`NaN`. -/
theorem fdivCount_ok (x : JsNum) (count : Nat) (hx : x ≠ JsNum.nan) (hc : count ≠ 0) :
    fdivCount x count ≠ JsNum.nan
    ∧ ∀ a b, fdivCount x count = JsNum.fin a b → b ≠ 0 := by
  cases x with
  | nan => exact absurd rfl hx
  | inf s => exact ⟨by simp [fdivCount], fun a b h => by simp [fdivCount] at h⟩
  | fin n d =>
    simp only [fdivCount, hc, if_false]
    exact ⟨(roundQ_clean n (d * count)).1, fun a b h => roundQ_den_ne_zero _ _ _ _ h⟩

theorem foldl_fadd_ne_nan (xs : List JsNum) (t : JsNum) (ht : t ≠ JsNum.nan)
    (hf : ∀ x ∈ xs, x.isFinite = true) : xs.foldl fadd t ≠ JsNum.nan := by
  induction xs generalizing t with
  | nil => exact ht
  | cons x rest ih =>
    rw [List.foldl_cons]
    exact ih _ (fadd_clean t x ht (hf x (by simp))).1 (fun y hy => hf y (by simp [hy]))

theorem sumScores_ne_nan (id : String) (votes : List Vote)
    (hf : ∀ v ∈ votes, (scoreOf id v).isFinite = true) : sumScores id votes ≠ JsNum.nan := by
  unfold sumScores
  apply foldl_fadd_ne_nan _ _ (by simp [JsNum.zero])
  intro x hx
  obtain ⟨v, hv, rfl⟩ := List.mem_map.1 hx
  exact hf v hv

theorem ne_NaN_of_mem (s : String) (h : 'e' ∈ s.data ∨ '.' ∈ s.data ∨ 'I' ∈ s.data) :
    s ≠ "NaN" := by
  intro he
  subst he
  revert h
  decide

/-- The text `NaN` is printed for `NaN` only. -/
theorem toFixed2_ne_NaN (x : JsNum) (hx : x ≠ JsNum.nan)
    (hd : ∀ a b, x = JsNum.fin a b → b ≠ 0) : toFixed2 x ≠ "NaN" := by
  cases x with
  | nan => exact absurd rfl hx
  | inf s => cases s <;> decide
  | fin n d =>
    have hd0 : d ≠ 0 := hd n d rfl
    apply ne_NaN_of_mem
    unfold toFixed2
    simp only [hd0, if_false]
    split
    · left
      simp [bigToString, String.data_append]
    · right; left
      simp [String.data_append]

/-- An average over votes whose scores read as finite numbers is not printed
as `NaN`. -/
theorem average_ne_NaN (id : String) (votes : List Vote) (hne : votes ≠ [])
    (hf : ∀ v ∈ votes, (scoreOf id v).isFinite = true) : average id votes ≠ "NaN" := by
  have hlen : votes.length ≠ 0 := fun h => hne (List.length_eq_zero.1 h)
  have hok := fdivCount_ok (sumScores id votes) votes.length (sumScores_ne_nan id votes hf) hlen
  exact toFixed2_ne_NaN _ hok.1 hok.2

/-- C12 (code bug, evaluated): with the scores `4`, `"abc"`, `2` for `A` in
three votes for `Team1`, the Group Score cell of `A` reads `0.67`: the total
goes `4`, `NaN`, is reset to `0` by `|| 0`, then `2`, so the `4` of the first
vote is dropped, where the log with `abc` replaced by `0` gives `2.00`.  With
`"abc"` in the only vote the cell reads `NaN`, where the log with `abc`
replaced by `0` gives `0.00`. -/
theorem malformed_scores_drop_votes :
    Reachable abcMiddleState
    ∧ abcMiddleState.votes.map (fun v => getProp v.scores "A")
        = [some (JsVal.num (JsNum.fin 4 1)), some (JsVal.str "abc"),
           some (JsVal.num (JsNum.fin 2 1))]
    ∧ (exportRows abcMiddleState.categories abcMiddleState.votes).map (groupRowsOf "Team1")
        = some [CsvRow.group "Team1" 3 ["0.67", "6.00"]]
    ∧ (exportRows abcMiddleState.categories (abcMiddleState.votes.map abcAsZero)).map
          (groupRowsOf "Team1")
        = some [CsvRow.group "Team1" 3 ["2.00", "6.00"]]
    ∧ Reachable abcState
    ∧ (exportRows abcState.categories abcState.votes).map (groupRowsOf "Team1")
        = some [CsvRow.group "Team1" 1 ["NaN", "6.00"]]
    ∧ (exportRows abcState.categories (abcState.votes.map abcAsZero)).map (groupRowsOf "Team1")
        = some [CsvRow.group "Team1" 1 ["0.00", "6.00"]] := by
  refine ⟨?_, by decide, by decide, by decide, ?_, by decide, by decide⟩
  · exact Reachable.submit _ _ _ _ (Reachable.submit _ _ _ _ (Reachable.submit _ _ _ _
      (openSubject_reachable _ _ _ sessionAB_reachable)))
  · exact Reachable.submit _ _ _ _ (openSubject_reachable _ _ _ sessionAB_reachable)

/-- Missing scores count as `0`, away from the inherited names: for a category
id that is not an inherited name, a score that is missing (or falsy: `null`,
`false`, the empty string, a zero, `NaN`) is read as the number `0`; when no
category id is an inherited name the export is the same as with every such
score replaced by the number `0`; and when moreover the category ids are
distinct and every score reads as a finite number, no average of the export
is `NaN`. -/
theorem missing_scores_count_as_zero (categories : List Category) (votes : List Vote)
    (hp : ∀ c ∈ categories, c.id ∉ objectPrototypeKeys) :
    (∀ (v : Vote), ∀ c ∈ categories, getProp v.scores c.id = none → scoreOf c.id v = JsNum.zero)
    ∧ (∀ (v : Vote), ∀ c ∈ categories,
        scoreOf c.id v = parseScore (some (zeroIfFalsy (getProp v.scores c.id))))
    ∧ exportRows categories (votes.map (zeroFilled categories)) = exportRows categories votes
    ∧ ((categories.map fun c => c.id).Nodup →
        (∀ v ∈ votes, ∀ c ∈ categories, (scoreOf c.id v).isFinite = true) →
        ∀ rows, exportRows categories votes = some rows →
          ∀ r ∈ rows, ∀ cell ∈ r.cells, cell ≠ "NaN") := by
  refine ⟨?_, ?_, ?_, ?_⟩
  · intro v c hc h
    simp [scoreOf, h, hp c hc]
  · intro v c hc
    rw [parseScore_zeroIfFalsy]
    unfold scoreOf
    cases hg : getProp v.scores c.id with
    | none => simp [hp c hc, parseScore]
    | some x => rfl
  · exact exportRows_map_congr categories (zeroFilled categories) votes (fun _ => rfl)
      (fun _ => rfl) (fun v c hc => scoreOf_zeroFilled categories v c hc (hp c hc))
  · intro hnd hf rows hrows r hr cell hcell
    rcases mem_exportRows categories votes rows hrows r hr with
      h1 | h1 | ⟨g, hg, h1⟩ | ⟨g, s, hg, hs, h1⟩
    · rw [h1] at hcell; simp [headerRow, CsvRow.cells] at hcell
    · rw [h1] at hcell; simp [CsvRow.cells] at hcell
    · rw [h1] at hcell
      have hne := votesOfMain_ne_nil votes g hg
      have hfin : ∀ v ∈ votesOfMain g votes, ∀ c ∈ categories,
          (scoreOf c.id v).isFinite = true :=
        fun v hv c hc => hf v (List.mem_filter.1 hv).1 c hc
      simp only [CsvRow.cells] at hcell
      rw [catAvgs_eq_average categories _ hnd hp hne hfin] at hcell
      obtain ⟨c, hc, rfl⟩ := List.mem_map.1 hcell
      exact average_ne_NaN c.id _ hne (fun v hv => hfin v hv c hc)
    · rw [h1] at hcell
      have hne := votesOfSub_ne_nil votes g s hs
      have hfin : ∀ v ∈ votesOfSub g s votes, ∀ c ∈ categories,
          (scoreOf c.id v).isFinite = true :=
        fun v hv c hc => hf v (List.mem_filter.1 (List.mem_filter.1 hv).1).1 c hc
      simp only [CsvRow.cells] at hcell
      rw [catAvgs_eq_average categories _ hnd hp hne hfin] at hcell
      obtain ⟨c, hc, rfl⟩ := List.mem_map.1 hcell
      exact average_ne_NaN c.id _ hne (fun v hv => hfin v hv c hc)

theorem missing_scores_count_as_zero_example :
    (exportRows categoriesAB missingState.votes).map (groupRowsOf "Team1")
        = some [CsvRow.group "Team1" 1 ["4.00", "0.00"]]
    ∧ exportRows categoriesAB (missingState.votes.map (zeroFilled categoriesAB))
        = exportRows categoriesAB missingState.votes :=
  ⟨by decide, (missing_scores_count_as_zero categoriesAB missingState.votes (by decide)).2.2.1⟩

/-- A score read through an inherited name is `NaN`, not `0`. -/
theorem scoreOf_inherited_name :
    scoreOf "constructor"
      { mainSubject := "Team1", subject := "Team1", scores := [], voterId := "s1",
        voterIp := "10.0.0.5", clientId := "AA:BB:CC:DD:EE:FF" } = JsNum.nan := by
  decide

set_option maxRecDepth 100000 in
set_option exponentiation.threshold 2000 in
/-- Finite scores can give an average that is not finite: with the score
`2 ^ 1023` for `A` in two votes the total overflows and the cell reads
`Infinity`. -/
theorem finite_scores_overflow :
    (∀ v ∈ overflowState.votes, ∀ c ∈ overflowState.categories,
      (scoreOf c.id v).isFinite = true)
    ∧ (exportRows overflowState.categories overflowState.votes).map (groupRowsOf "Team1")
        = some [CsvRow.group "Team1" 2 ["Infinity", "6.00"]] := by
  refine ⟨by decide, by decide⟩

end LANVote
